import Mathlib

/-!
# A to Z Packers website: verification of `app.js`

A shallow embedding of the page router, testimonial carousel, form validator,
form submission coordinator and modal controller of `src/app.js`, together
with the properties the specification states about them.

Conventions of the embedding.

* JavaScript strings are `String`s, read as lists of characters.
* The document is a list of nodes; a node reference (what `getElementById`
  or a `NodeList` entry denotes) is the position of the node in that list.
* `classList` is a list of class tokens.
* A function that can raise a `TypeError` before it has changed anything
  returns `Option`; `none` is the raised error.
-/

namespace AtoZ

/-! ## Regular expressions

The two validation patterns of `app.js` are kept as syntax trees and run by a
derivative matcher.  Both patterns are anchored with `^` and `$` and carry no
flags, so `RegExp.prototype.test` answers whether the whole input belongs to
the language of the pattern. -/

/-- Regular expressions over characters, with character classes as predicates. -/
inductive Regex where
  | empty : Regex
  | eps : Regex
  | cls (p : Char → Bool) : Regex
  | seq (a b : Regex) : Regex
  | alt (a b : Regex) : Regex
  | star (a : Regex) : Regex

namespace Regex

/-- The pattern matching exactly the character `c`. -/
def chr (c : Char) : Regex := cls (fun d => d == c)

/-- The pattern `a+`. -/
def plus (a : Regex) : Regex := seq a (star a)

/-- The pattern `a{n}`. -/
def rep (a : Regex) : Nat → Regex
  | 0 => eps
  | n + 1 => seq a (rep a n)

/-- The pattern `a{0,n}`. -/
def upTo (a : Regex) : Nat → Regex
  | 0 => eps
  | n + 1 => alt eps (seq a (upTo a n))

/-- The pattern `a{lo,hi}`. -/
def range (a : Regex) (lo hi : Nat) : Regex := seq (rep a lo) (upTo a (hi - lo))

/-- Whether the pattern accepts the empty input. -/
def nullable : Regex → Bool
  | empty => false
  | eps => true
  | cls _ => false
  | seq a b => nullable a && nullable b
  | alt a b => nullable a || nullable b
  | star _ => true

/-- The derivative of a pattern with respect to one character. -/
def deriv : Regex → Char → Regex
  | empty, _ => empty
  | eps, _ => empty
  | cls p, c => if p c then eps else empty
  | seq a b, c =>
      if nullable a then alt (seq (deriv a c) b) (deriv b c) else seq (deriv a c) b
  | alt a b, c => alt (deriv a c) (deriv b c)
  | star a, c => seq (deriv a c) (star a)

/-- The answer of `regex.test(input)` for an anchored pattern: does the whole input match. -/
def test (r : Regex) : List Char → Bool
  | [] => nullable r
  | c :: cs => test (deriv r c) cs

/-- The language of a pattern. -/
inductive Matches : Regex → List Char → Prop
  | eps : Matches Regex.eps []
  | cls (p : Char → Bool) (c : Char) : p c = true → Matches (Regex.cls p) [c]
  | seq {a b : Regex} {x y : List Char} :
      Matches a x → Matches b y → Matches (Regex.seq a b) (x ++ y)
  | altL {a b : Regex} {x : List Char} : Matches a x → Matches (Regex.alt a b) x
  | altR {a b : Regex} {x : List Char} : Matches b x → Matches (Regex.alt a b) x
  | starNil {a : Regex} : Matches (Regex.star a) []
  | starCons {a : Regex} {x y : List Char} :
      Matches a x → Matches (Regex.star a) y → Matches (Regex.star a) (x ++ y)

end Regex

/-! ## Strings -/

/-- Code points that `\s` matches and that `String.prototype.trim` strips:
the ECMAScript `WhiteSpace` and `LineTerminator` productions. -/
def isWhiteSpace (c : Char) : Bool :=
  let n := c.toNat
  n == 0x09 || n == 0x0A || n == 0x0B || n == 0x0C || n == 0x0D || n == 0x20 ||
  n == 0xA0 || n == 0x1680 || (0x2000 ≤ n && n ≤ 0x200A) || n == 0x2028 ||
  n == 0x2029 || n == 0x202F || n == 0x205F || n == 0x3000 || n == 0xFEFF

/-- Characters matched by `[0-9]`. -/
def isDigit (c : Char) : Bool := 0x30 ≤ c.toNat && c.toNat ≤ 0x39

/-- The string method `trim()`. -/
def trim (s : List Char) : List Char :=
  ((s.dropWhile isWhiteSpace).reverse.dropWhile isWhiteSpace).reverse

/-- The call `s.replace(/\s/g, '')`. -/
def stripWhiteSpace (s : List Char) : List Char :=
  s.filter (fun c => !isWhiteSpace c)

/-- The class `[^\s@]`. -/
def notSpaceAt (c : Char) : Bool := !(isWhiteSpace c || c == '@')

/-- The class `[0-9\s-]`. -/
def digitSpaceHyphen (c : Char) : Bool := isDigit c || isWhiteSpace c || c == '-'

/-- The pattern `/^[^\s@]+@[^\s@]+\.[^\s@]+$/`. -/
def emailRegex : Regex :=
  .seq (.plus (.cls notSpaceAt))
    (.seq (.chr '@')
      (.seq (.plus (.cls notSpaceAt))
        (.seq (.chr '.') (.plus (.cls notSpaceAt)))))

/-- The pattern `/^(\+44|0)[0-9\s-]{9,13}$/`. -/
def phoneRegex : Regex :=
  .seq (.alt (.seq (.chr '+') (.seq (.chr '4') (.chr '4'))) (.chr '0'))
    (.range (.cls digitSpaceHyphen) 9 13)

/-- The function `isValidEmail(email)`. -/
def isValidEmail (email : String) : Bool :=
  emailRegex.test email.toList

/-- The function `isValidPhone(phone)`. -/
def isValidPhone (phone : String) : Bool :=
  phoneRegex.test (stripWhiteSpace phone.toList)

/-! ## The document and the application state -/

/-- A document node: the attributes and the class tokens the script reads or writes. -/
structure Node where
  id : String
  href : Option String
  classList : List String
deriving DecidableEq, Repr

/-- The call `classList.add(token)`. -/
def Node.addClass (token : String) (n : Node) : Node :=
  { n with classList := if token ∈ n.classList then n.classList else n.classList ++ [token] }

/-- The call `classList.remove(token)`. -/
def Node.removeClass (token : String) (n : Node) : Node :=
  { n with classList := n.classList.filter (fun t => t != token) }

/-- The call `classList.toggle(token, force)`. -/
def Node.toggleClass (token : String) (force : Bool) (n : Node) : Node :=
  if force then n.addClass token else n.removeClass token

/-- The call `classList.contains(token)`. -/
def Node.hasClass (token : String) (n : Node) : Bool :=
  n.classList.contains token

/-- Apply a mutation to the node at a reference; other nodes are untouched. -/
def modifyNode (f : Node → Node) : Nat → List Node → List Node
  | _, [] => []
  | 0, n :: ns => f n :: ns
  | k + 1, n :: ns => n :: modifyNode f k ns

/-- Position of the first node carrying the given id. -/
def findById (id : String) : List Node → Option Nat
  | [] => none
  | n :: ns => if n.id = id then some 0 else (findById id ns).map (fun k => k + 1)

/-- The call `document.getElementById(id)`; an empty id names no element. -/
def getElementById (doc : List Node) (id : String) : Option Nat :=
  if id = "" then none else findById id doc

/-- The object `app`. -/
structure App where
  currentPage : String
  testimonialIndex : Nat
  isModalOpen : Bool
  testimonialAutoplay : Option Nat
deriving DecidableEq, Repr

/-- The closures the script hands to `setInterval` and `setTimeout`. -/
inductive Callback where
  | autoplayTick : Callback
  | removeFadeIn (target : Nat) : Callback
  | finishSubmission (formType : String) (data : List (String × String)) : Callback
deriving DecidableEq, Repr

/-- A pending timer. -/
structure Timer where
  id : Nat
  delay : Nat
  repeating : Bool
  callback : Callback
deriving DecidableEq, Repr

/-- The node references cached in the object `elements` that the modelled functions use. -/
structure Elements where
  navLinks : List Nat
  pages : List Nat
  testimonials : List Nat
  modal : Option Nat
deriving DecidableEq, Repr

/-- Everything the modelled functions read or write. -/
structure World where
  app : App
  elements : Elements
  document : List Node
  hash : String
  historyLength : Nat
  scrollX : Nat
  scrollY : Nat
  bodyOverflow : String
  timers : List Timer
  timerCount : Nat
deriving DecidableEq, Repr

/-- The object literal `app` at the top of the script. -/
def App.initial : App :=
  { currentPage := "home", testimonialIndex := 0, isModalOpen := false,
    testimonialAutoplay := none }

/-- The node a reference denotes. -/
def World.node? (w : World) (ref : Nat) : Option Node := w.document[ref]?

/-- Whether the node at a reference carries a class token. -/
def hasClassAt (doc : List Node) (token : String) (ref : Nat) : Bool :=
  match doc[ref]? with
  | none => false
  | some n => n.hasClass token

/-- Whether the testimonial item at position `j` of `elements.testimonials` carries `active`. -/
def World.testimonialActive (w : World) (j : Nat) : Bool :=
  match w.elements.testimonials[j]? with
  | none => false
  | some ref => hasClassAt w.document "active" ref

/-- The pages of `elements.pages` that carry `active`, as references. -/
def World.activePages (w : World) : List Nat :=
  w.elements.pages.filter (hasClassAt w.document "active")

/-- The entries of a `NodeList` are distinct nodes of the document. -/
def NodeListOk (refs : List Nat) (doc : List Node) : Prop :=
  refs.Nodup ∧ ∀ ref ∈ refs, ref < doc.length

instance (refs : List Nat) (doc : List Node) : Decidable (NodeListOk refs doc) := by
  unfold NodeListOk
  infer_instance

/-- The call `setInterval(callback, delay)`; timer ids are positive. -/
def setInterval (cb : Callback) (delay : Nat) (w : World) : World × Nat :=
  let id := w.timerCount + 1
  ({ w with timers := w.timers ++ [⟨id, delay, true, cb⟩], timerCount := id }, id)

/-- The call `setTimeout(callback, delay)`. -/
def setTimeout (cb : Callback) (delay : Nat) (w : World) : World × Nat :=
  let id := w.timerCount + 1
  ({ w with timers := w.timers ++ [⟨id, delay, false, cb⟩], timerCount := id }, id)

/-- The call `clearInterval(id)`. -/
def clearInterval (id : Nat) (w : World) : World :=
  { w with timers := w.timers.filter (fun t => t.id != id) }

/-! ## Testimonial slider -/

/-- The function `stopTestimonialAutoplay()`. -/
def stopTestimonialAutoplay (w : World) : World :=
  match w.app.testimonialAutoplay with
  | none => w
  | some id =>
    if id = 0 then w
    else
      let w1 := clearInterval id w
      { w1 with app := { w1.app with testimonialAutoplay := none } }

/-- The function `startTestimonialAutoplay()`. -/
def startTestimonialAutoplay (w : World) : World :=
  let w1 := stopTestimonialAutoplay w
  let (w2, id) := setInterval Callback.autoplayTick 5000 w1
  { w2 with app := { w2.app with testimonialAutoplay := some id } }

/-- The function `showNextTestimonial()`.  Reading `classList` of a missing item raises. -/
def showNextTestimonial (w : World) : Option World :=
  let len := w.elements.testimonials.length
  if len = 0 then some w
  else
    match w.elements.testimonials[w.app.testimonialIndex]? with
    | none => none
    | some cur =>
      let doc1 := modifyNode (Node.removeClass "active") cur w.document
      let idx := (w.app.testimonialIndex + 1) % len
      match w.elements.testimonials[idx]? with
      | none => none
      | some nxt =>
        some { w with
          document := modifyNode (Node.addClass "active") nxt doc1,
          app := { w.app with testimonialIndex := idx } }

/-- The function `showPreviousTestimonial()`. -/
def showPreviousTestimonial (w : World) : Option World :=
  let len := w.elements.testimonials.length
  if len = 0 then some w
  else
    match w.elements.testimonials[w.app.testimonialIndex]? with
    | none => none
    | some cur =>
      let doc1 := modifyNode (Node.removeClass "active") cur w.document
      let idx := if w.app.testimonialIndex = 0 then len - 1 else w.app.testimonialIndex - 1
      match w.elements.testimonials[idx]? with
      | none => none
      | some prv =>
        some { w with
          document := modifyNode (Node.addClass "active") prv doc1,
          app := { w.app with testimonialIndex := idx } }

/-- The loop of `initializeTestimonials` that toggles `active` on every item,
starting at position `index`. -/
def toggleFirstActive : Nat → List Nat → List Node → List Node
  | _, [], doc => doc
  | index, ref :: refs, doc =>
    toggleFirstActive (index + 1) refs
      (modifyNode (Node.toggleClass "active" (index == 0)) ref doc)

/-- The function `initializeTestimonials()`; registering the click listeners changes no state. -/
def initializeTestimonials (w : World) : World :=
  if w.elements.testimonials.length = 0 then w
  else
    let doc1 := toggleFirstActive 0 w.elements.testimonials w.document
    startTestimonialAutoplay
      { w with document := doc1, app := { w.app with testimonialIndex := 0 } }

/-- The closure passed to `setInterval` by `startTestimonialAutoplay`. -/
def autoplayTick (w : World) : Option World :=
  if w.app.currentPage = "home" then showNextTestimonial w else some w

/-- Run the tick closure `k` times in a row. -/
def runTicks : Nat → World → Option World
  | 0, w => some w
  | k + 1, w => (autoplayTick w).bind (runTicks k)

/-- A manual carousel command. -/
inductive CarouselOp where
  | next : CarouselOp
  | previous : CarouselOp
deriving DecidableEq, Repr

/-- Run one carousel command. -/
def CarouselOp.run : CarouselOp → World → Option World
  | .next, w => showNextTestimonial w
  | .previous, w => showPreviousTestimonial w

/-- Run a sequence of carousel commands, stopping at the first error. -/
def runCarousel : List CarouselOp → World → Option World
  | [], w => some w
  | op :: ops, w => (op.run w).bind (runCarousel ops)

/-! ## Page switching -/

/-- The loop of `showPage` that removes `active` from every page. -/
def hideAllPages (pages : List Nat) (doc : List Node) : List Node :=
  pages.foldl (fun d ref => modifyNode (Node.removeClass "active") ref d) doc

/-- The function `updateActiveNavLink(pageId)`, on the document. -/
def updateActiveNavLink (pageId : String) (navLinks : List Nat) (doc : List Node) : List Node :=
  navLinks.foldl
    (fun d ref =>
      modifyNode
        (fun link =>
          let link1 := link.removeClass "active"
          if link1.href = some ("#" ++ pageId) then link1.addClass "active" else link1)
        ref d)
    doc

/-- The function `showPage(pageId)`. -/
def showPage (pageId : String) (w : World) : World :=
  let doc1 := hideAllPages w.elements.pages w.document
  match getElementById doc1 pageId with
  | none => { w with document := doc1 }
  | some target =>
    let doc2 := modifyNode (Node.addClass "active") target doc1
    let doc3 := updateActiveNavLink pageId w.elements.navLinks doc2
    let doc4 := modifyNode (Node.addClass "fade-in-up") target doc3
    let w1 : World :=
      { w with
        document := doc4,
        app := { w.app with currentPage := pageId },
        hash := "#" ++ pageId,
        historyLength := w.historyLength + 1,
        scrollX := 0,
        scrollY := 0 }
    let w2 := (setTimeout (Callback.removeFadeIn target) 600 w1).1
    if pageId = "home" then startTestimonialAutoplay w2 else stopTestimonialAutoplay w2

/-! ## Modal -/

/-- The function `showModal()`. -/
def showModal (w : World) : World :=
  match w.elements.modal with
  | none => w
  | some m =>
    { w with
      document := modifyNode (Node.removeClass "hidden") m w.document,
      app := { w.app with isModalOpen := true },
      bodyOverflow := "hidden" }

/-- The function `hideModal()`. -/
def hideModal (w : World) : World :=
  match w.elements.modal with
  | none => w
  | some m =>
    { w with
      document := modifyNode (Node.addClass "hidden") m w.document,
      app := { w.app with isModalOpen := false },
      bodyOverflow := "" }

/-! ## Forms

A form is the list of its controls in document order, its submit button and
the `.form-group` ancestor of its consent checkbox.  Each control carries the
feedback the script writes next to it: its own class tokens and the
`.error-message` spans of its parent.  Distinct controls are taken to sit in
distinct parents, so the feedback of one control is not read through another. -/

/-- A form control. -/
structure Field where
  tag : String
  name : String
  type : String
  required : Bool
  value : String
  checked : Bool
  classList : List String
  errorMessages : List String
deriving DecidableEq, Repr

/-- An element that only receives feedback: its class tokens and the
`.error-message` spans of its parent. -/
structure Group where
  classList : List String
  errorMessages : List String
deriving DecidableEq, Repr

/-- The submit button of a form. -/
structure Button where
  textContent : String
  disabled : Bool
  classList : List String
deriving DecidableEq, Repr

/-- A form element. -/
structure Form where
  fields : List Field
  submitBtn : Option Button
  consentGroup : Option Group
deriving DecidableEq, Repr

/-- Class tokens after `classList.remove(drop)` followed by `classList.add(add)`. -/
def swapClass (drop add : String) (cl : List String) : List String :=
  let cl1 := cl.filter (fun t => t != drop)
  if add ∈ cl1 then cl1 else cl1 ++ [add]

/-- The function `showFieldError(field, message)` on a control. -/
def showFieldError (field : Field) (message : String) : Field :=
  { field with
    classList := swapClass "success" "error" field.classList,
    errorMessages := field.errorMessages.drop 1 ++ [message] }

/-- The function `showFieldSuccess(field)` on a control. -/
def showFieldSuccess (field : Field) : Field :=
  { field with
    classList := swapClass "error" "success" field.classList,
    errorMessages := field.errorMessages.drop 1 }

/-- The function `showFieldError(group, message)` on a `.form-group` element. -/
def showGroupError (group : Group) (message : String) : Group :=
  { classList := swapClass "success" "error" group.classList,
    errorMessages := group.errorMessages.drop 1 ++ [message] }

/-- Whether `!field.value.trim()` holds: the trimmed value is the empty string. -/
def isBlank (value : String) : Bool := (trim value.toList).isEmpty

/-- The body of the `requiredFields.forEach` callback of `validateForm`:
the control after feedback, and whether it kept the form valid. -/
def checkRequired (field : Field) : Field × Bool :=
  if isBlank field.value then
    (showFieldError field "This field is required", false)
  else
    let field1 := showFieldSuccess field
    if field.type = "email" && !isValidEmail field.value then
      (showFieldError field1 "Please enter a valid email address", false)
    else if field.type = "tel" && !isValidPhone field.value then
      (showFieldError field1 "Please enter a valid phone number", false)
    else
      (field1, true)

/-- The loop over `form.querySelectorAll('[required]')`: controls without the
attribute are skipped; `isValid` is carried along. -/
def validateRequired : List Field → Bool → List Field × Bool
  | [], isValid => ([], isValid)
  | field :: rest, isValid =>
    if field.required then
      let r := checkRequired field
      let out := validateRequired rest (isValid && r.2)
      (r.1 :: out.1, out.2)
    else
      let out := validateRequired rest isValid
      (field :: out.1, out.2)

/-- Whether a control matches the selector `input[name="consent"]`. -/
def isConsentInput (f : Field) : Bool := f.tag == "input" && f.name == "consent"

/-- The call `form.querySelector('input[name="consent"]')`. -/
def consentCheckbox (form : Form) : Option Field :=
  form.fields.find? isConsentInput

/-- The function `validateForm(form)`: the form after feedback and the value
returned, `none` when `showFieldError` is handed the `null` of a consent
checkbox without a `.form-group` ancestor and raises. -/
def validateForm (form : Form) : Form × Option Bool :=
  let out := validateRequired form.fields true
  let form1 : Form := { form with fields := out.1 }
  match consentCheckbox form1 with
  | none => (form1, some out.2)
  | some checkbox =>
    if !checkbox.checked then
      match form1.consentGroup with
      | none => (form1, none)
      | some group =>
        ({ form1 with consentGroup := some (showGroupError group "Please agree to be contacted") },
          some false)
    else (form1, some out.2)

/-- The entries of `new FormData(form)`: named controls, check boxes and radio
buttons only when checked. -/
def formDataEntries (form : Form) : List (String × String) :=
  (form.fields.filter (fun f =>
      f.name != "" && (!(f.type == "checkbox" || f.type == "radio") || f.checked))).map
    (fun f => (f.name, f.value))

/-- What a call of `handleFormSubmission` leaves behind. -/
structure Submission where
  world : World
  form : Form
  raised : Bool
deriving DecidableEq, Repr

/-- The function `handleFormSubmission(form, formType)`. -/
def handleFormSubmission (w : World) (form : Form) (formType : String) : Submission :=
  match form.submitBtn with
  | none => { world := w, form := form, raised := true }
  | some submitBtn =>
    match validateForm form with
    | (form1, none) => { world := w, form := form1, raised := true }
    | (form1, some false) => { world := w, form := form1, raised := false }
    | (form1, some true) =>
      let btn1 : Button :=
        { submitBtn with
          classList :=
            if "loading" ∈ submitBtn.classList then submitBtn.classList
            else submitBtn.classList ++ ["loading"],
          disabled := true }
      let form2 : Form := { form1 with submitBtn := some btn1 }
      let data := formDataEntries form2
      let w1 := (setTimeout (Callback.finishSubmission formType data) 2000 w).1
      { world := w1, form := form2, raised := false }

/-! ## Shapes named by the specification -/

/-- The shape `local@domain.tld`: no white space, exactly one `@`, and a `.`
after the `@` that leaves three non-empty parts. -/
def EmailShape (s : List Char) : Prop :=
  (∀ ch ∈ s, isWhiteSpace ch = false) ∧ s.count '@' = 1 ∧
    ∃ a b c : List Char, s = a ++ '@' :: (b ++ '.' :: c) ∧ a ≠ [] ∧ b ≠ [] ∧ c ≠ []

/-- Between 9 and 13 characters, each a digit or a hyphen. -/
def PhoneBody (rest : List Char) : Prop :=
  9 ≤ rest.length ∧ rest.length ≤ 13 ∧ ∀ ch ∈ rest, isDigit ch = true ∨ ch = '-'

/-- The phone shape with an optional `+44` or `0` in front of the body. -/
def PhoneShapeOptional (s : List Char) : Prop :=
  ∃ pre rest : List Char, s = pre ++ rest ∧
    (pre = [] ∨ pre = ['+', '4', '4'] ∨ pre = ['0']) ∧ PhoneBody rest

/-- The phone shape with a mandatory `+44` or `0` in front of the body. -/
def PhoneShapeRequired (s : List Char) : Prop :=
  ∃ pre rest : List Char, s = pre ++ rest ∧
    (pre = ['+', '4', '4'] ∨ pre = ['0']) ∧ PhoneBody rest

/-! ## Carousel invariant -/

/-- The state both carousel commands leave behind when they move from the
current item to the item at position `idx`. -/
def carouselMove (w : World) (idx : Nat) : World :=
  { w with
    document :=
      modifyNode (Node.addClass "active") (w.elements.testimonials.getD idx 0)
        (modifyNode (Node.removeClass "active")
          (w.elements.testimonials.getD w.app.testimonialIndex 0) w.document),
    app := { w.app with testimonialIndex := idx } }

/-- The index is in range and the item at the index is the only active one. -/
def CarouselInv (w : World) : Prop :=
  NodeListOk w.elements.testimonials w.document ∧
    w.app.testimonialIndex < w.elements.testimonials.length ∧
    ∀ j, j < w.elements.testimonials.length →
      w.testimonialActive j = decide (j = w.app.testimonialIndex)

/-! ## A sample page -/

/-- A small document: two navigation links, a home and a contact page, three
testimonial items, the modal and a header. -/
def sampleWorld : World :=
  { app := App.initial,
    elements :=
      { navLinks := [0, 1], pages := [2, 3], testimonials := [4, 5, 6], modal := some 7 },
    document :=
      [ ⟨"", some "#home", ["nav__link", "active"]⟩,
        ⟨"", some "#contact", ["nav__link"]⟩,
        ⟨"home", none, ["page", "active"]⟩,
        ⟨"contact", none, ["page"]⟩,
        ⟨"", none, ["testimonial", "active"]⟩,
        ⟨"", none, ["testimonial"]⟩,
        ⟨"", none, ["testimonial"]⟩,
        ⟨"success-modal", none, ["modal", "hidden"]⟩,
        ⟨"header", none, []⟩ ],
    hash := "",
    historyLength := 1,
    scrollX := 0,
    scrollY := 0,
    bodyOverflow := "",
    timers := [],
    timerCount := 0 }

/-- The sample page while the contact page is shown. -/
def sampleContactWorld : World :=
  { sampleWorld with app := { App.initial with currentPage := "contact" } }

/-! ## Reachable states -/

/-- The page ids the script accepts from the address bar. -/
def knownPages : List String := ["home", "services", "about", "contact"]

/-- The state at script start: the literal `app`, and no autoplay timer pending. -/
def World.Initial (w : World) : Prop :=
  w.app = App.initial ∧
    ∀ t ∈ w.timers, t.id ≤ w.timerCount ∧ t.callback ≠ Callback.autoplayTick

instance (w : World) : Decidable w.Initial := by
  unfold World.Initial
  infer_instance

/-- The calls a user can trigger after start-up. -/
inductive Action where
  | showPage (pageId : String) : Action
  | showNextTestimonial : Action
  | showPreviousTestimonial : Action
  | showModal : Action
  | hideModal : Action
deriving DecidableEq, Repr

/-- Run one call.  A carousel call that raises does so before it writes
anything, so the state stays as it was. -/
def Action.run : Action → World → World
  | .showPage pageId, w => AtoZ.showPage pageId w
  | .showNextTestimonial, w => (AtoZ.showNextTestimonial w).getD w
  | .showPreviousTestimonial, w => (AtoZ.showPreviousTestimonial w).getD w
  | .showModal, w => AtoZ.showModal w
  | .hideModal, w => AtoZ.hideModal w

/-- Run a sequence of calls. -/
def runActions : List Action → World → World
  | [], w => w
  | a :: rest, w => runActions rest (a.run w)

/-- Timer bookkeeping: the handle in `app.testimonialAutoplay` is a real timer id,
timer ids are not reused, and a pending autoplay timer is the one the handle names. -/
def TimerInv (w : World) : Prop :=
  (∀ id, w.app.testimonialAutoplay = some id → id ≠ 0) ∧
    (∀ t ∈ w.timers, t.id ≤ w.timerCount) ∧
    (∀ t ∈ w.timers, t.callback = Callback.autoplayTick →
      w.app.testimonialAutoplay = some t.id)

/-- The autoplay timer is armed only on the home page. -/
def ArmedOnlyOnHome (w : World) : Prop :=
  w.app.testimonialAutoplay ≠ none → w.app.currentPage = "home"

/-! ## Field results named by the specification -/

/-- What `validateForm` demands of a control it looks at: a non-blank value, a
well-formed address when of type `email`, a well-formed number when of type `tel`. -/
def FieldOk (f : Field) : Prop :=
  isBlank f.value = false ∧ (f.type = "email" → isValidEmail f.value = true) ∧
    (f.type = "tel" → isValidPhone f.value = true)

instance (f : Field) : Decidable (FieldOk f) := by
  unfold FieldOk
  infer_instance

/-- The field-level result `Valid` of the specification: not blank when
required, a well-formed address when of type `email`, a well-formed number when
of type `tel`. -/
def SpecFieldValid (f : Field) : Prop :=
  (f.required = true → isBlank f.value = false) ∧
    (f.type = "email" → isValidEmail f.value = true) ∧
    (f.type = "tel" → isValidPhone f.value = true)

instance (f : Field) : Decidable (SpecFieldValid f) := by
  unfold SpecFieldValid
  infer_instance

/-- The consent checkbox, when the form has one, is checked. -/
def ConsentOk (form : Form) : Prop :=
  ∀ checkbox, consentCheckbox form = some checkbox → checkbox.checked = true

/-- A form whose only control is an optional address field holding `abc`. -/
def optionalEmailForm : Form :=
  { fields := [⟨"input", "email", "email", false, "abc", false, ["form-control"], []⟩],
    submitBtn := some ⟨"Send", false, ["btn"]⟩,
    consentGroup := none }

/-- A quote form: name left blank, a phone number, and an unchecked consent box. -/
def blankNameForm : Form :=
  { fields :=
      [ ⟨"input", "name", "text", true, "  ", false, ["form-control"], []⟩,
        ⟨"input", "phone", "tel", true, "07123 456789", false, ["form-control"], []⟩,
        ⟨"input", "consent", "checkbox", false, "on", false, [], []⟩ ],
    submitBtn := some ⟨"Get quote", false, ["btn"]⟩,
    consentGroup := some ⟨["form-group"], []⟩ }

/-- A quote form filled in correctly, consent given. -/
def filledForm : Form :=
  { fields :=
      [ ⟨"input", "name", "text", true, "Ada", false, ["form-control"], []⟩,
        ⟨"input", "email", "email", true, "user@example.com", false, ["form-control"], []⟩,
        ⟨"input", "phone", "tel", true, "07123 456789", false, ["form-control"], []⟩,
        ⟨"textarea", "notes", "textarea", false, "", false, ["form-control"], []⟩,
        ⟨"input", "consent", "checkbox", false, "on", true, [], []⟩ ],
    submitBtn := some ⟨"Get quote", false, ["btn"]⟩,
    consentGroup := some ⟨["form-group"], []⟩ }

/-! ## Phone input formatting -/

/-- The call `s.replace(/\D/g, '')`: only the characters `0` to `9` stay. -/
def stripNonDigits (s : List Char) : List Char := s.filter isDigit

/-- The string method `startsWith(head)`. -/
def startsWith (head s : List Char) : Bool := head.isPrefixOf s

/-- The string method `substring(start)`. -/
def substringFrom (s : List Char) (start : Nat) : List Char := s.drop start

/-- The string method `substring(start, stop)`; the two bounds are swapped when
`start` exceeds `stop`, and both are clamped to the length. -/
def substring (s : List Char) (start stop : Nat) : List Char :=
  (s.take (max start stop)).drop (min start stop)

/-- The `input` listener that `enhanceFormUX` attaches to every
`input[type="tel"]`: the value it writes back to the field. -/
def phoneInputHandler (fieldValue : String) : String :=
  let value0 := stripNonDigits fieldValue.toList
  let value1 :=
    if startsWith "44".toList value0 then "+44 ".toList ++ substringFrom value0 2
    else if startsWith "0".toList value0 then "+44 ".toList ++ substringFrom value0 1
    else value0
  let value2 :=
    if startsWith "+44".toList value1 then
      let numbers := substringFrom value1 3
      if numbers.length > 4 then
        "+44 ".toList ++ substring numbers 0 4 ++ " ".toList ++ substring numbers 4 7 ++
          " ".toList ++ substring numbers 7 10
      else value1
    else value1
  String.mk (trim value2)

/-- The format the comment `Format as +44 XXXX XXX XXX` announces for the ten
digits that follow the `0` or the `44`. -/
def announcedPhoneFormat (d1 d2 d3 d4 d5 d6 d7 d8 d9 d10 : Char) : String :=
  String.mk ['+', '4', '4', ' ', d1, d2, d3, d4, ' ', d5, d6, d7, ' ', d8, d9, d10]

/-! ## Correctness of the matcher -/

namespace Regex

theorem not_matches_empty (s : List Char) : ¬ Matches empty s := by
  intro h
  cases h

theorem matches_eps_iff (s : List Char) : Matches eps s ↔ s = [] := by
  constructor
  · intro h
    cases h
    rfl
  · rintro rfl
    exact Matches.eps

theorem matches_cls_iff (p : Char → Bool) (s : List Char) :
    Matches (cls p) s ↔ ∃ c, s = [c] ∧ p c = true := by
  constructor
  · intro h
    cases h with
    | cls _ c hc => exact ⟨c, rfl, hc⟩
  · rintro ⟨c, rfl, hc⟩
    exact Matches.cls p c hc

theorem matches_seq_iff (a b : Regex) (s : List Char) :
    Matches (seq a b) s ↔ ∃ x y, s = x ++ y ∧ Matches a x ∧ Matches b y := by
  constructor
  · intro h
    cases h with
    | seq ha hb => exact ⟨_, _, rfl, ha, hb⟩
  · rintro ⟨x, y, rfl, ha, hb⟩
    exact Matches.seq ha hb

theorem matches_alt_iff (a b : Regex) (s : List Char) :
    Matches (alt a b) s ↔ Matches a s ∨ Matches b s := by
  constructor
  · intro h
    cases h with
    | altL ha => exact Or.inl ha
    | altR hb => exact Or.inr hb
  · rintro (ha | hb)
    · exact Matches.altL ha
    · exact Matches.altR hb

theorem matches_star_cons (a : Regex) (c : Char) (s : List Char) :
    Matches (star a) (c :: s) ↔
      ∃ x y, s = x ++ y ∧ Matches a (c :: x) ∧ Matches (star a) y := by
  constructor
  · intro h
    generalize hr : star a = r at h
    generalize ht : c :: s = t at h
    induction h generalizing s with
    | eps => cases hr
    | cls _ _ _ => cases hr
    | seq _ _ _ _ => cases hr
    | altL _ _ => cases hr
    | altR _ _ => cases hr
    | starNil => cases ht
    | @starCons a1 x y hx hy _ ihy =>
      cases hr
      cases x with
      | nil =>
        simp only [List.nil_append] at ht
        exact ihy s rfl ht
      | cons d x1 =>
        simp only [List.cons_append, List.cons.injEq] at ht
        obtain ⟨rfl, rfl⟩ := ht
        exact ⟨x1, y, rfl, hx, hy⟩
  · rintro ⟨x, y, rfl, hx, hy⟩
    exact Matches.starCons hx hy

theorem nullable_iff (r : Regex) : nullable r = true ↔ Matches r [] := by
  induction r with
  | empty => simp [nullable, not_matches_empty]
  | eps => simp [nullable, matches_eps_iff]
  | cls p => simp [nullable, matches_cls_iff]
  | seq a b iha ihb =>
    simp only [nullable, Bool.and_eq_true, iha, ihb, matches_seq_iff]
    constructor
    · rintro ⟨ha, hb⟩
      exact ⟨[], [], rfl, ha, hb⟩
    · rintro ⟨x, y, hxy, ha, hb⟩
      have hx : x = [] := by
        cases x with
        | nil => rfl
        | cons _ _ => simp at hxy
      have hy : y = [] := by
        subst hx
        simpa using hxy.symm
      subst hx hy
      exact ⟨ha, hb⟩
  | alt a b iha ihb =>
    simp only [nullable, Bool.or_eq_true, iha, ihb, matches_alt_iff]
  | star a _ =>
    simp only [nullable, true_iff]
    exact Matches.starNil

theorem matches_deriv (r : Regex) (c : Char) (s : List Char) :
    Matches (deriv r c) s ↔ Matches r (c :: s) := by
  induction r generalizing s with
  | empty => simp [deriv, not_matches_empty]
  | eps => simp [deriv, not_matches_empty, matches_eps_iff]
  | cls p =>
    by_cases hp : p c = true
    · simp only [deriv, hp, if_true, matches_eps_iff, matches_cls_iff]
      constructor
      · rintro rfl
        exact ⟨c, rfl, hp⟩
      · rintro ⟨d, hd, _⟩
        simp only [List.cons.injEq] at hd
        exact hd.2
    · simp only [deriv, hp, matches_cls_iff]
      constructor
      · intro h
        exact absurd h (not_matches_empty s)
      · rintro ⟨d, hd, hpd⟩
        simp only [List.cons.injEq] at hd
        obtain ⟨rfl, _⟩ := hd
        exact absurd hpd hp
  | seq a b iha ihb =>
    have key : Matches (seq a b) (c :: s) ↔
        (Matches a [] ∧ Matches b (c :: s)) ∨
          ∃ x y, s = x ++ y ∧ Matches a (c :: x) ∧ Matches b y := by
      rw [matches_seq_iff]
      constructor
      · rintro ⟨x, y, hxy, ha, hb⟩
        cases x with
        | nil =>
          simp only [List.nil_append] at hxy
          subst hxy
          exact Or.inl ⟨ha, hb⟩
        | cons d x1 =>
          simp only [List.cons_append, List.cons.injEq] at hxy
          obtain ⟨rfl, rfl⟩ := hxy
          exact Or.inr ⟨x1, y, rfl, ha, hb⟩
      · rintro (⟨ha, hb⟩ | ⟨x, y, rfl, ha, hb⟩)
        · exact ⟨[], c :: s, rfl, ha, hb⟩
        · exact ⟨c :: x, y, rfl, ha, hb⟩
    rw [key]
    by_cases hn : nullable a = true
    · simp only [deriv, hn, if_true, matches_alt_iff, matches_seq_iff, iha, ihb]
      have hn1 := (nullable_iff a).1 hn
      constructor
      · rintro (h | h)
        · exact Or.inr h
        · exact Or.inl ⟨hn1, h⟩
      · rintro (⟨_, h⟩ | h)
        · exact Or.inr h
        · exact Or.inl h
    · have hf : nullable a = false := by simpa using hn
      simp only [deriv, hf, Bool.false_eq_true, if_false, matches_seq_iff, iha]
      have hn1 : ¬ Matches a [] := fun h => hn ((nullable_iff a).2 h)
      constructor
      · intro h
        exact Or.inr h
      · rintro (⟨h, _⟩ | h)
        · exact absurd h hn1
        · exact h
  | alt a b iha ihb =>
    simp only [deriv, matches_alt_iff, iha, ihb]
  | star a iha =>
    simp only [deriv, matches_seq_iff, iha, matches_star_cons]

theorem test_iff (r : Regex) (s : List Char) : test r s = true ↔ Matches r s := by
  induction s generalizing r with
  | nil => simpa [test] using nullable_iff r
  | cons c cs ih =>
    simp only [test, ih, matches_deriv]

end Regex

/-! ## The two validation patterns -/

namespace Regex

theorem matches_chr_iff (c : Char) (s : List Char) : Matches (chr c) s ↔ s = [c] := by
  simp only [chr, matches_cls_iff, beq_iff_eq]
  constructor
  · rintro ⟨d, rfl, rfl⟩
    rfl
  · rintro rfl
    exact ⟨c, rfl, rfl⟩

theorem matches_star_cls (p : Char → Bool) (s : List Char) :
    Matches (star (cls p)) s ↔ ∀ c ∈ s, p c = true := by
  induction s with
  | nil => simpa using Matches.starNil
  | cons c cs ih =>
    rw [matches_star_cons]
    constructor
    · rintro ⟨x, y, rfl, hx, hy⟩
      rw [matches_cls_iff] at hx
      obtain ⟨d, hd, hpd⟩ := hx
      simp only [List.cons.injEq] at hd
      obtain ⟨rfl, rfl⟩ := hd
      simp only [List.nil_append] at ih
      intro e he
      rcases List.mem_cons.1 he with rfl | he
      · exact hpd
      · exact ih.1 hy e he
    · intro h
      refine ⟨[], cs, rfl, Matches.cls p c (h c (List.mem_cons_self c cs)), ?_⟩
      exact ih.2 (fun e he => h e (List.mem_cons_of_mem c he))

theorem matches_plus_cls (p : Char → Bool) (s : List Char) :
    Matches (plus (cls p)) s ↔ s ≠ [] ∧ ∀ c ∈ s, p c = true := by
  cases s with
  | nil =>
    simp only [plus, matches_seq_iff, matches_cls_iff, ne_eq, not_true_eq_false, false_and,
      iff_false]
    rintro ⟨x, y, hxy, ⟨d, rfl, _⟩, _⟩
    simp at hxy
  | cons c cs =>
    simp only [plus, matches_seq_iff, matches_cls_iff, matches_star_cls]
    constructor
    · rintro ⟨x, y, hxy, ⟨d, rfl, hpd⟩, hy⟩
      simp only [List.singleton_append, List.cons.injEq] at hxy
      obtain ⟨rfl, rfl⟩ := hxy
      refine ⟨by simp, ?_⟩
      intro e he
      rcases List.mem_cons.1 he with rfl | he
      · exact hpd
      · exact hy e he
    · rintro ⟨_, h⟩
      exact ⟨[c], cs, rfl, ⟨c, rfl, h c (List.mem_cons_self c cs)⟩,
        fun e he => h e (List.mem_cons_of_mem c he)⟩

theorem matches_rep_cls (p : Char → Bool) (n : Nat) (s : List Char) :
    Matches (rep (cls p) n) s ↔ s.length = n ∧ ∀ c ∈ s, p c = true := by
  induction n generalizing s with
  | zero =>
    simp only [rep, matches_eps_iff, List.length_eq_zero]
    constructor
    · rintro rfl
      simp
    · exact fun h => h.1
  | succ n ih =>
    simp only [rep, matches_seq_iff, matches_cls_iff, ih]
    constructor
    · rintro ⟨x, y, rfl, ⟨d, rfl, hpd⟩, hlen, hy⟩
      refine ⟨by simp [hlen], ?_⟩
      intro e he
      rcases List.mem_cons.1 he with rfl | he
      · exact hpd
      · exact hy e he
    · rintro ⟨hlen, h⟩
      cases s with
      | nil => simp at hlen
      | cons c cs =>
        refine ⟨[c], cs, rfl, ⟨c, rfl, h c (List.mem_cons_self c cs)⟩, ?_, ?_⟩
        · simpa using hlen
        · exact fun e he => h e (List.mem_cons_of_mem c he)

theorem matches_upTo_cls (p : Char → Bool) (n : Nat) (s : List Char) :
    Matches (upTo (cls p) n) s ↔ s.length ≤ n ∧ ∀ c ∈ s, p c = true := by
  induction n generalizing s with
  | zero =>
    simp only [upTo, matches_eps_iff, Nat.le_zero, List.length_eq_zero]
    constructor
    · rintro rfl
      simp
    · exact fun h => h.1
  | succ n ih =>
    simp only [upTo, matches_alt_iff, matches_eps_iff, matches_seq_iff, matches_cls_iff, ih]
    constructor
    · rintro (rfl | ⟨x, y, rfl, ⟨d, rfl, hpd⟩, hlen, hy⟩)
      · simp
      · refine ⟨by simpa using hlen, ?_⟩
        intro e he
        rcases List.mem_cons.1 he with rfl | he
        · exact hpd
        · exact hy e he
    · rintro ⟨hlen, h⟩
      cases s with
      | nil => exact Or.inl rfl
      | cons c cs =>
        refine Or.inr ⟨[c], cs, rfl, ⟨c, rfl, h c (List.mem_cons_self c cs)⟩, ?_, ?_⟩
        · simpa using hlen
        · exact fun e he => h e (List.mem_cons_of_mem c he)

theorem matches_range_cls (p : Char → Bool) (lo hi : Nat) (hle : lo ≤ hi) (s : List Char) :
    Matches (range (cls p) lo hi) s ↔
      lo ≤ s.length ∧ s.length ≤ hi ∧ ∀ c ∈ s, p c = true := by
  simp only [range, matches_seq_iff, matches_rep_cls, matches_upTo_cls]
  constructor
  · rintro ⟨x, y, rfl, ⟨hx, hpx⟩, hy, hpy⟩
    refine ⟨by simp [hx], by simp only [List.length_append]; omega, ?_⟩
    intro e he
    rcases List.mem_append.1 he with he | he
    · exact hpx e he
    · exact hpy e he
  · rintro ⟨h1, h2, h⟩
    refine ⟨s.take lo, s.drop lo, (List.take_append_drop lo s).symm, ⟨?_, ?_⟩, ?_, ?_⟩
    · simp only [List.length_take]
      omega
    · exact fun e he => h e (List.mem_of_mem_take he)
    · simp only [List.length_drop]
      omega
    · exact fun e he => h e (List.mem_of_mem_drop he)

end Regex

theorem matches_emailRegex_iff (s : List Char) :
    Regex.Matches emailRegex s ↔
      ∃ a b c : List Char, s = a ++ '@' :: (b ++ '.' :: c) ∧
        (a ≠ [] ∧ ∀ ch ∈ a, notSpaceAt ch = true) ∧
        (b ≠ [] ∧ ∀ ch ∈ b, notSpaceAt ch = true) ∧
        (c ≠ [] ∧ ∀ ch ∈ c, notSpaceAt ch = true) := by
  simp only [emailRegex, Regex.matches_seq_iff, Regex.matches_plus_cls, Regex.matches_chr_iff]
  constructor
  · rintro ⟨a, _, rfl, ha, _, _, rfl, rfl, b, _, rfl, hb, _, c, rfl, rfl, hc⟩
    exact ⟨a, b, c, by simp, ha, hb, hc⟩
  · rintro ⟨a, b, c, rfl, ha, hb, hc⟩
    exact ⟨a, _, rfl, ha, ['@'], _, rfl, rfl, b, _, rfl, hb, ['.'], c, rfl, rfl, hc⟩

theorem matches_phoneRegex_iff (s : List Char) :
    Regex.Matches phoneRegex s ↔
      ∃ pre rest : List Char, s = pre ++ rest ∧
        (pre = ['+', '4', '4'] ∨ pre = ['0']) ∧
        9 ≤ rest.length ∧ rest.length ≤ 13 ∧ ∀ ch ∈ rest, digitSpaceHyphen ch = true := by
  simp only [phoneRegex, Regex.matches_seq_iff, Regex.matches_alt_iff, Regex.matches_chr_iff,
    Regex.matches_range_cls _ 9 13 (by decide)]
  constructor
  · rintro ⟨pre, rest, rfl, hpre, hrest⟩
    refine ⟨pre, rest, rfl, ?_, hrest⟩
    rcases hpre with ⟨_, _, rfl, rfl, _, _, rfl, rfl, rfl⟩ | rfl
    · exact Or.inl rfl
    · exact Or.inr rfl
  · rintro ⟨pre, rest, rfl, hpre, hrest⟩
    refine ⟨pre, rest, rfl, ?_, hrest⟩
    rcases hpre with rfl | rfl
    · exact Or.inl ⟨['+'], _, rfl, rfl, ['4'], ['4'], rfl, rfl, rfl⟩
    · exact Or.inr rfl

theorem notSpaceAt_iff (ch : Char) :
    notSpaceAt ch = true ↔ isWhiteSpace ch = false ∧ ch ≠ '@' := by
  simp [notSpaceAt]

theorem count_at_eq_zero (l : List Char) (h : ∀ ch ∈ l, notSpaceAt ch = true) :
    l.count '@' = 0 := by
  rw [List.count_eq_zero]
  intro hmem
  exact ((notSpaceAt_iff '@').1 (h '@' hmem)).2 rfl

theorem emailShape_of_parts (a b c : List Char)
    (ha : ∀ ch ∈ a, notSpaceAt ch = true) (hb : ∀ ch ∈ b, notSpaceAt ch = true)
    (hc : ∀ ch ∈ c, notSpaceAt ch = true) :
    (∀ ch ∈ a ++ '@' :: (b ++ '.' :: c), isWhiteSpace ch = false) ∧
      (a ++ '@' :: (b ++ '.' :: c)).count '@' = 1 := by
  constructor
  · intro ch hch
    simp only [List.mem_append, List.mem_cons] at hch
    rcases hch with h | rfl | h | rfl | h
    · exact ((notSpaceAt_iff ch).1 (ha ch h)).1
    · decide
    · exact ((notSpaceAt_iff ch).1 (hb ch h)).1
    · decide
    · exact ((notSpaceAt_iff ch).1 (hc ch h)).1
  · have h1 := count_at_eq_zero a ha
    have h2 := count_at_eq_zero b hb
    have h3 := count_at_eq_zero c hc
    have hdot : ('.' == '@') = false := by decide
    simp [List.count_append, List.count_cons, h1, h2, h3, hdot]

theorem parts_of_emailShape (a b c : List Char)
    (hws : ∀ ch ∈ a ++ '@' :: (b ++ '.' :: c), isWhiteSpace ch = false)
    (hcount : (a ++ '@' :: (b ++ '.' :: c)).count '@' = 1) :
    (∀ ch ∈ a, notSpaceAt ch = true) ∧ (∀ ch ∈ b, notSpaceAt ch = true) ∧
      (∀ ch ∈ c, notSpaceAt ch = true) := by
  have hdot : ('.' == '@') = false := by decide
  simp only [List.count_append, List.count_cons, hdot, beq_self_eq_true, if_true,
    Bool.false_eq_true, if_false] at hcount
  have h1 : a.count '@' = 0 := by omega
  have h2 : b.count '@' = 0 := by omega
  have h3 : c.count '@' = 0 := by omega
  rw [List.count_eq_zero] at h1 h2 h3
  refine ⟨fun ch h => ?_, fun ch h => ?_, fun ch h => ?_⟩
  · refine (notSpaceAt_iff ch).2 ⟨hws ch (by simp [h]), ?_⟩
    rintro rfl
    exact h1 h
  · refine (notSpaceAt_iff ch).2 ⟨hws ch (by simp [h]), ?_⟩
    rintro rfl
    exact h2 h
  · refine (notSpaceAt_iff ch).2 ⟨hws ch (by simp [h]), ?_⟩
    rintro rfl
    exact h3 h

theorem isValidEmail_iff (s : String) : isValidEmail s = true ↔ EmailShape s.toList := by
  unfold isValidEmail EmailShape
  rw [Regex.test_iff, matches_emailRegex_iff]
  constructor
  · rintro ⟨a, b, c, hs, ⟨ha0, ha⟩, ⟨hb0, hb⟩, ⟨hc0, hc⟩⟩
    rw [hs]
    obtain ⟨h1, h2⟩ := emailShape_of_parts a b c ha hb hc
    exact ⟨h1, h2, a, b, c, rfl, ha0, hb0, hc0⟩
  · rintro ⟨hws, hcount, a, b, c, hs, ha0, hb0, hc0⟩
    rw [hs] at hws hcount
    obtain ⟨ha, hb, hc⟩ := parts_of_emailShape a b c hws hcount
    exact ⟨a, b, c, hs, ⟨ha0, ha⟩, ⟨hb0, hb⟩, ⟨hc0, hc⟩⟩

theorem digitSpaceHyphen_of_not_space (ch : Char) (h : isWhiteSpace ch = false) :
    digitSpaceHyphen ch = true ↔ (isDigit ch = true ∨ ch = '-') := by
  simp [digitSpaceHyphen, h]

theorem not_space_of_mem_strip (s : List Char) (ch : Char) (h : ch ∈ stripWhiteSpace s) :
    isWhiteSpace ch = false := by
  simpa using (List.mem_filter.1 h).2

theorem isValidPhone_iff (p : String) :
    isValidPhone p = true ↔ PhoneShapeRequired (stripWhiteSpace p.toList) := by
  unfold isValidPhone PhoneShapeRequired PhoneBody
  rw [Regex.test_iff, matches_phoneRegex_iff]
  constructor
  · rintro ⟨pre, rest, hs, hpre, h9, h13, hall⟩
    refine ⟨pre, rest, hs, hpre, h9, h13, fun ch hch => ?_⟩
    have hmem : ch ∈ stripWhiteSpace p.toList := by
      rw [hs]
      exact List.mem_append_right pre hch
    exact (digitSpaceHyphen_of_not_space ch (not_space_of_mem_strip _ ch hmem)).1 (hall ch hch)
  · rintro ⟨pre, rest, hs, hpre, h9, h13, hall⟩
    refine ⟨pre, rest, hs, hpre, h9, h13, fun ch hch => ?_⟩
    have hmem : ch ∈ stripWhiteSpace p.toList := by
      rw [hs]
      exact List.mem_append_right pre hch
    exact (digitSpaceHyphen_of_not_space ch (not_space_of_mem_strip _ ch hmem)).2 (hall ch hch)

/-! ## Nodes and class tokens -/

theorem length_modifyNode (f : Node → Node) (ref : Nat) (doc : List Node) :
    (modifyNode f ref doc).length = doc.length := by
  induction doc generalizing ref with
  | nil => cases ref <;> rfl
  | cons n ns ih =>
    cases ref with
    | zero => rfl
    | succ k => simp [modifyNode, ih]

theorem getElem?_modifyNode (f : Node → Node) (ref k : Nat) (doc : List Node) :
    (modifyNode f ref doc)[k]? = if ref = k then doc[k]?.map f else doc[k]? := by
  induction doc generalizing ref k with
  | nil => cases ref <;> simp [modifyNode]
  | cons n ns ih =>
    cases ref with
    | zero =>
      cases k with
      | zero => simp [modifyNode]
      | succ j => simp [modifyNode]
    | succ r =>
      cases k with
      | zero => simp [modifyNode]
      | succ j => simp [modifyNode, ih]

theorem hasClass_addClass (token other : String) (n : Node) :
    (n.addClass token).hasClass other = (other == token || n.hasClass other) := by
  unfold Node.addClass Node.hasClass
  by_cases h : token ∈ n.classList
  · by_cases ho : other = token
    · subst ho
      simp [h]
    · simp [h, ho]
  · by_cases ho : other = token
    · subst ho
      simp [h]
    · simp [h, ho]

theorem hasClass_removeClass (token other : String) (n : Node) :
    (n.removeClass token).hasClass other = (other != token && n.hasClass other) := by
  unfold Node.removeClass Node.hasClass
  rw [Bool.eq_iff_iff]
  simp [List.mem_filter, and_comm]

theorem hasClassAt_modify_add (doc : List Node) (token : String) (ref k : Nat) :
    hasClassAt (modifyNode (Node.addClass token) ref doc) token k =
      (hasClassAt doc token k || (decide (ref = k) && decide (k < doc.length))) := by
  unfold hasClassAt
  rw [getElem?_modifyNode]
  by_cases h : ref = k
  · subst h
    by_cases hk : ref < doc.length
    · simp [List.getElem?_eq_getElem hk, hasClass_addClass, hk]
    · simp [List.getElem?_eq_none (Nat.le_of_not_lt hk), hk]
  · simp [h]

theorem hasClassAt_modify_remove (doc : List Node) (token : String) (ref k : Nat) :
    hasClassAt (modifyNode (Node.removeClass token) ref doc) token k =
      (hasClassAt doc token k && !decide (ref = k)) := by
  unfold hasClassAt
  rw [getElem?_modifyNode]
  by_cases h : ref = k
  · subst h
    by_cases hk : ref < doc.length
    · simp [List.getElem?_eq_getElem hk, hasClass_removeClass]
    · simp [List.getElem?_eq_none (Nat.le_of_not_lt hk)]
  · simp [h]

/-! ## Autoplay start and stop leave the carousel alone -/

theorem stop_document (w : World) : (stopTestimonialAutoplay w).document = w.document := by
  unfold stopTestimonialAutoplay clearInterval
  split
  · rfl
  · split <;> rfl

theorem stop_elements (w : World) : (stopTestimonialAutoplay w).elements = w.elements := by
  unfold stopTestimonialAutoplay clearInterval
  split
  · rfl
  · split <;> rfl

theorem stop_index (w : World) :
    (stopTestimonialAutoplay w).app.testimonialIndex = w.app.testimonialIndex := by
  unfold stopTestimonialAutoplay clearInterval
  split
  · rfl
  · split <;> rfl

theorem stop_currentPage (w : World) :
    (stopTestimonialAutoplay w).app.currentPage = w.app.currentPage := by
  unfold stopTestimonialAutoplay clearInterval
  split
  · rfl
  · split <;> rfl

theorem start_document (w : World) : (startTestimonialAutoplay w).document = w.document := by
  simp [startTestimonialAutoplay, setInterval, stop_document]

theorem start_elements (w : World) : (startTestimonialAutoplay w).elements = w.elements := by
  simp [startTestimonialAutoplay, setInterval, stop_elements]

theorem start_index (w : World) :
    (startTestimonialAutoplay w).app.testimonialIndex = w.app.testimonialIndex := by
  simp [startTestimonialAutoplay, setInterval, stop_index]

theorem start_currentPage (w : World) :
    (startTestimonialAutoplay w).app.currentPage = w.app.currentPage := by
  simp [startTestimonialAutoplay, setInterval, stop_currentPage]

/-! ## Carousel steps -/

theorem showNext_eq (w : World)
    (hi : w.app.testimonialIndex < w.elements.testimonials.length) :
    showNextTestimonial w =
      some (carouselMove w ((w.app.testimonialIndex + 1) % w.elements.testimonials.length)) := by
  have hpos : 0 < w.elements.testimonials.length := Nat.lt_of_le_of_lt (Nat.zero_le _) hi
  have hlen : w.elements.testimonials.length ≠ 0 := Nat.pos_iff_ne_zero.1 hpos
  have hj : (w.app.testimonialIndex + 1) % w.elements.testimonials.length <
      w.elements.testimonials.length := Nat.mod_lt _ hpos
  simp only [showNextTestimonial, hlen, if_false, List.getElem?_eq_getElem hi,
    List.getElem?_eq_getElem hj, carouselMove, List.getD_eq_getElem _ 0 hi,
    List.getD_eq_getElem _ 0 hj]

theorem showPrevious_eq (w : World)
    (hi : w.app.testimonialIndex < w.elements.testimonials.length) :
    showPreviousTestimonial w =
      some (carouselMove w
        (if w.app.testimonialIndex = 0 then w.elements.testimonials.length - 1
          else w.app.testimonialIndex - 1)) := by
  have hpos : 0 < w.elements.testimonials.length := Nat.lt_of_le_of_lt (Nat.zero_le _) hi
  have hlen : w.elements.testimonials.length ≠ 0 := Nat.pos_iff_ne_zero.1 hpos
  have hj : (if w.app.testimonialIndex = 0 then w.elements.testimonials.length - 1
      else w.app.testimonialIndex - 1) < w.elements.testimonials.length := by
    split <;> omega
  simp only [showPreviousTestimonial, hlen, if_false, List.getElem?_eq_getElem hi,
    List.getElem?_eq_getElem hj, carouselMove, List.getD_eq_getElem _ 0 hi,
    List.getD_eq_getElem _ 0 hj]

theorem carouselMove_index (w : World) (idx : Nat) :
    (carouselMove w idx).app.testimonialIndex = idx := rfl

theorem carouselMove_elements (w : World) (idx : Nat) :
    (carouselMove w idx).elements = w.elements := rfl

theorem carouselOp_run_eq (op : CarouselOp) (w : World)
    (hi : w.app.testimonialIndex < w.elements.testimonials.length) :
    ∃ idx, idx < w.elements.testimonials.length ∧ op.run w = some (carouselMove w idx) := by
  have hpos : 0 < w.elements.testimonials.length := Nat.lt_of_le_of_lt (Nat.zero_le _) hi
  cases op with
  | next => exact ⟨_, Nat.mod_lt _ hpos, showNext_eq w hi⟩
  | previous =>
    refine ⟨_, ?_, showPrevious_eq w hi⟩
    split <;> omega

theorem runCarousel_index (ops : List CarouselOp) (w : World)
    (hi : w.app.testimonialIndex < w.elements.testimonials.length) :
    ∃ w1, runCarousel ops w = some w1 ∧ w1.elements = w.elements ∧
      w1.app.testimonialIndex < w.elements.testimonials.length := by
  induction ops generalizing w with
  | nil => exact ⟨w, rfl, rfl, hi⟩
  | cons op ops ih =>
    obtain ⟨idx, hidx, hrun⟩ := carouselOp_run_eq op w hi
    obtain ⟨w1, h1, h2, h3⟩ := ih (carouselMove w idx) hidx
    refine ⟨w1, ?_, h2, h3⟩
    simp [runCarousel, hrun, h1]

/-! ## Exactly one active item -/

theorem testimonialActive_eq (w : World) (j : Nat) (hj : j < w.elements.testimonials.length) :
    w.testimonialActive j = hasClassAt w.document "active" (w.elements.testimonials[j]) := by
  simp [World.testimonialActive, List.getElem?_eq_getElem hj]

theorem carouselMove_inv (w : World) (idx : Nat) (hinv : CarouselInv w)
    (hidx : idx < w.elements.testimonials.length) : CarouselInv (carouselMove w idx) := by
  obtain ⟨⟨hnd, hrange⟩, hi, hact⟩ := hinv
  refine ⟨⟨hnd, ?_⟩, hidx, ?_⟩
  · intro ref href
    simpa [carouselMove, length_modifyNode] using hrange ref href
  · intro j hj
    have hj1 : j < w.elements.testimonials.length := hj
    have hold := hact j hj1
    rw [testimonialActive_eq w j hj1] at hold
    rw [testimonialActive_eq _ j hj]
    have hrj : w.elements.testimonials[j] < w.document.length :=
      hrange _ (List.getElem_mem hj1)
    simp only [carouselMove, List.getD_eq_getElem _ 0 hi, List.getD_eq_getElem _ 0 hidx,
      hasClassAt_modify_add, hasClassAt_modify_remove, length_modifyNode, hold,
      hnd.getElem_inj_iff, hrj, decide_True, Bool.and_true]
    rw [Bool.eq_iff_iff]
    simp only [Bool.or_eq_true, Bool.and_eq_true, decide_eq_true_eq, Bool.not_eq_true',
      decide_eq_false_iff_not]
    constructor
    · rintro (⟨h1, h2⟩ | h)
      · exact absurd h1.symm h2
      · exact h.symm
    · intro h
      exact Or.inr h.symm

theorem runCarousel_inv (ops : List CarouselOp) (w : World) (hinv : CarouselInv w) :
    ∃ w1, runCarousel ops w = some w1 ∧ w1.elements = w.elements ∧ CarouselInv w1 := by
  induction ops generalizing w with
  | nil => exact ⟨w, rfl, rfl, hinv⟩
  | cons op ops ih =>
    obtain ⟨idx, hidx, hrun⟩ := carouselOp_run_eq op w hinv.2.1
    obtain ⟨w1, h1, h2, h3⟩ := ih (carouselMove w idx) (carouselMove_inv w idx hinv hidx)
    refine ⟨w1, ?_, h2, h3⟩
    simp [runCarousel, hrun, h1]

theorem length_toggleFirstActive (k : Nat) (refs : List Nat) (doc : List Node) :
    (toggleFirstActive k refs doc).length = doc.length := by
  induction refs generalizing k doc with
  | nil => rfl
  | cons r rs ih => simp [toggleFirstActive, ih, length_modifyNode]

theorem getElem?_toggleFirstActive_of_not_mem (k : Nat) (refs : List Nat) (doc : List Node)
    (r : Nat) (hr : r ∉ refs) : (toggleFirstActive k refs doc)[r]? = doc[r]? := by
  induction refs generalizing k doc with
  | nil => rfl
  | cons r1 rs ih =>
    have h1 : r1 ≠ r := fun h => hr (by simp [h])
    have h2 : r ∉ rs := fun h => hr (List.mem_cons_of_mem _ h)
    simp [toggleFirstActive, ih _ _ h2, getElem?_modifyNode, h1]

theorem hasClassAt_toggle (doc : List Node) (token : String) (force : Bool) (r : Nat)
    (hr : r < doc.length) :
    hasClassAt (modifyNode (Node.toggleClass token force) r doc) token r = force := by
  cases force with
  | true =>
    have h : Node.toggleClass token true = Node.addClass token := by
      funext n
      simp [Node.toggleClass]
    rw [h, hasClassAt_modify_add]
    simp [hr]
  | false =>
    have h : Node.toggleClass token false = Node.removeClass token := by
      funext n
      simp [Node.toggleClass]
    rw [h, hasClassAt_modify_remove]
    simp

theorem hasClassAt_toggleFirstActive (k : Nat) (refs : List Nat) (doc : List Node)
    (hok : NodeListOk refs doc) (j : Nat) (hj : j < refs.length) :
    hasClassAt (toggleFirstActive k refs doc) "active" (refs[j]) = decide (k + j = 0) := by
  induction refs generalizing k doc j with
  | nil => simp at hj
  | cons r rs ih =>
    obtain ⟨hnd, hrange⟩ := hok
    have hr : r ∉ rs := (List.nodup_cons.1 hnd).1
    have hrs : rs.Nodup := (List.nodup_cons.1 hnd).2
    have hrlt : r < doc.length := hrange r (List.mem_cons_self r rs)
    have hok1 : NodeListOk rs (modifyNode (Node.toggleClass "active" (k == 0)) r doc) :=
      ⟨hrs, fun ref href => by
        rw [length_modifyNode]
        exact hrange ref (List.mem_cons_of_mem _ href)⟩
    cases j with
    | zero =>
      simp only [List.getElem_cons_zero, toggleFirstActive, Nat.add_zero]
      unfold hasClassAt
      rw [getElem?_toggleFirstActive_of_not_mem _ _ _ _ hr]
      have := hasClassAt_toggle doc "active" (k == 0) r hrlt
      unfold hasClassAt at this
      rw [this]
      by_cases hk : k = 0 <;> simp [hk]
    | succ j1 =>
      have hj1 : j1 < rs.length := by simpa using hj
      simp only [List.getElem_cons_succ, toggleFirstActive]
      rw [ih (k + 1) _ hok1 j1 hj1]
      simp

theorem initializeTestimonials_inv (w : World)
    (hok : NodeListOk w.elements.testimonials w.document)
    (hN : 1 ≤ w.elements.testimonials.length) :
    (initializeTestimonials w).elements = w.elements ∧ CarouselInv (initializeTestimonials w) := by
  have hlen : w.elements.testimonials.length ≠ 0 := by omega
  have hdef : initializeTestimonials w =
      startTestimonialAutoplay
        { w with
          document := toggleFirstActive 0 w.elements.testimonials w.document,
          app := { w.app with testimonialIndex := 0 } } := by
    simp [initializeTestimonials, hlen]
  rw [hdef]
  refine ⟨by rw [start_elements], ?_⟩
  unfold CarouselInv
  rw [start_elements, start_document, start_index]
  refine ⟨⟨hok.1, fun ref href => ?_⟩, by simpa using hN, fun j hj => ?_⟩
  · simpa [length_toggleFirstActive] using hok.2 ref href
  · have hj1 : j < w.elements.testimonials.length := hj
    have hst : (startTestimonialAutoplay
        { w with
          document := toggleFirstActive 0 w.elements.testimonials w.document,
          app := { w.app with testimonialIndex := 0 } }).testimonialActive j =
        hasClassAt (toggleFirstActive 0 w.elements.testimonials w.document) "active"
          (w.elements.testimonials[j]) := by
      simp [World.testimonialActive, start_elements, start_document,
        List.getElem?_eq_getElem hj1]
    rw [hst, hasClassAt_toggleFirstActive 0 _ _ hok j hj1]
    simp

/-! ## Carousel properties -/

/-- C1: with `N ≥ 1` items and a starting `testimonialIndex` in `[0, N)`, every
finite sequence of `showNextTestimonial` / `showPreviousTestimonial` calls runs
without error and leaves `app.testimonialIndex` in `[0, N)`. -/
theorem C1_index_stays_in_range (w : World) (N : Nat) (ops : List CarouselOp)
    (hlen : w.elements.testimonials.length = N) (hN : 1 ≤ N)
    (hi : w.app.testimonialIndex < N) :
    ∃ w1, runCarousel ops w = some w1 ∧ w1.elements.testimonials.length = N ∧
      w1.app.testimonialIndex < N := by
  subst hlen
  obtain ⟨w1, h1, h2, h3⟩ := runCarousel_index ops w hi
  exact ⟨w1, h1, by rw [h2], h3⟩

theorem C1_index_stays_in_range_witness :
    ∃ w1, runCarousel [CarouselOp.next, CarouselOp.previous, CarouselOp.previous] sampleWorld
        = some w1 ∧
      w1.elements.testimonials.length = 3 ∧ w1.app.testimonialIndex < 3 :=
  C1_index_stays_in_range sampleWorld 3
    [CarouselOp.next, CarouselOp.previous, CarouselOp.previous] (by decide) (by decide)
    (by decide)

/-- C2: with `N ≥ 1` items and `testimonialIndex` in `[0, N)`,
`showNextTestimonial` followed by `showPreviousTestimonial` restores the index,
and so does `showPreviousTestimonial` followed by `showNextTestimonial`. -/
theorem C2_next_previous_round_trip (w : World) (N : Nat)
    (hlen : w.elements.testimonials.length = N) (hN : 1 ≤ N)
    (hi : w.app.testimonialIndex < N) :
    (∃ w1 w2, showNextTestimonial w = some w1 ∧ showPreviousTestimonial w1 = some w2 ∧
        w2.app.testimonialIndex = w.app.testimonialIndex) ∧
      (∃ w1 w2, showPreviousTestimonial w = some w1 ∧ showNextTestimonial w1 = some w2 ∧
        w2.app.testimonialIndex = w.app.testimonialIndex) := by
  subst hlen
  have hpos : 0 < w.elements.testimonials.length := hN
  constructor
  · have hj : (carouselMove w
        ((w.app.testimonialIndex + 1) % w.elements.testimonials.length)).app.testimonialIndex <
        (carouselMove w
          ((w.app.testimonialIndex + 1) % w.elements.testimonials.length)).elements.testimonials.length :=
      Nat.mod_lt _ hpos
    refine ⟨_, _, showNext_eq w hi, showPrevious_eq _ hj, ?_⟩
    simp only [carouselMove_index, carouselMove_elements]
    by_cases hlast : w.app.testimonialIndex + 1 = w.elements.testimonials.length
    · rw [hlast, Nat.mod_self]
      simp only [if_true]
      omega
    · have hlt : w.app.testimonialIndex + 1 < w.elements.testimonials.length := by omega
      rw [Nat.mod_eq_of_lt hlt]
      simp
  · have hj : (carouselMove w
        (if w.app.testimonialIndex = 0 then w.elements.testimonials.length - 1
          else w.app.testimonialIndex - 1)).app.testimonialIndex <
        (carouselMove w
          (if w.app.testimonialIndex = 0 then w.elements.testimonials.length - 1
            else w.app.testimonialIndex - 1)).elements.testimonials.length := by
      simp only [carouselMove_index, carouselMove_elements]
      split <;> omega
    refine ⟨_, _, showPrevious_eq w hi, showNext_eq _ hj, ?_⟩
    simp only [carouselMove_index, carouselMove_elements]
    by_cases hzero : w.app.testimonialIndex = 0
    · simp only [hzero, if_true]
      rw [Nat.sub_add_cancel hN, Nat.mod_self]
    · simp only [hzero, if_false]
      rw [Nat.sub_add_cancel (Nat.pos_of_ne_zero hzero), Nat.mod_eq_of_lt hi]

theorem C2_next_previous_round_trip_witness :
    (∃ w1 w2, showNextTestimonial sampleWorld = some w1 ∧
        showPreviousTestimonial w1 = some w2 ∧
        w2.app.testimonialIndex = sampleWorld.app.testimonialIndex) ∧
      (∃ w1 w2, showPreviousTestimonial sampleWorld = some w1 ∧
        showNextTestimonial w1 = some w2 ∧
        w2.app.testimonialIndex = sampleWorld.app.testimonialIndex) :=
  C2_next_previous_round_trip sampleWorld 3 (by decide) (by decide) (by decide)

/-- C8: while `app.currentPage` is not `home`, running the autoplay tick
callback any number of times succeeds and changes neither
`app.testimonialIndex` nor the `active` flag of any testimonial item. -/
theorem C8_ticks_off_home_do_nothing (w : World) (k : Nat)
    (hpage : w.app.currentPage ≠ "home") :
    ∃ w1, runTicks k w = some w1 ∧ w1.app.testimonialIndex = w.app.testimonialIndex ∧
      ∀ j, w1.testimonialActive j = w.testimonialActive j := by
  have hrun : runTicks k w = some w := by
    induction k with
    | zero => rfl
    | succ n ih => simp [runTicks, autoplayTick, hpage, ih]
  exact ⟨w, hrun, rfl, fun _ => rfl⟩

theorem C8_ticks_off_home_do_nothing_witness :
    sampleContactWorld.app.currentPage ≠ "home" ∧
      ∃ w1, runTicks 4 sampleContactWorld = some w1 ∧
        w1.app.testimonialIndex = sampleContactWorld.app.testimonialIndex ∧
        ∀ j, w1.testimonialActive j = sampleContactWorld.testimonialActive j :=
  ⟨by decide, C8_ticks_off_home_do_nothing sampleContactWorld 4 (by decide)⟩

/-- C10: with `N ≥ 1` distinct testimonial items, every state reached from
`initializeTestimonials` by a finite sequence of `showNextTestimonial` /
`showPreviousTestimonial` calls has exactly one item marked `active`, the one at
`app.testimonialIndex`. -/
theorem C10_exactly_one_active (w0 : World) (N : Nat) (ops : List CarouselOp)
    (hok : NodeListOk w0.elements.testimonials w0.document)
    (hlen : w0.elements.testimonials.length = N) (hN : 1 ≤ N) :
    ∃ w1, runCarousel ops (initializeTestimonials w0) = some w1 ∧
      w1.elements.testimonials.length = N ∧ w1.app.testimonialIndex < N ∧
      ∀ j, j < N → (w1.testimonialActive j = true ↔ j = w1.app.testimonialIndex) := by
  subst hlen
  obtain ⟨hel, hinv⟩ := initializeTestimonials_inv w0 hok hN
  obtain ⟨w1, hrun, hel1, _, hidx, hact⟩ := runCarousel_inv ops _ hinv
  have hlen1 : w1.elements.testimonials.length = w0.elements.testimonials.length := by
    rw [hel1, hel]
  refine ⟨w1, hrun, hlen1, by rw [← hlen1]; exact hidx, fun j hj => ?_⟩
  rw [hact j (by rw [hlen1]; exact hj)]
  simp

theorem C10_exactly_one_active_witness :
    NodeListOk sampleWorld.elements.testimonials sampleWorld.document ∧
      ∃ w1, runCarousel [CarouselOp.previous, CarouselOp.next, CarouselOp.next]
          (initializeTestimonials sampleWorld) = some w1 ∧
        w1.elements.testimonials.length = 3 ∧ w1.app.testimonialIndex < 3 ∧
        ∀ j, j < 3 → (w1.testimonialActive j = true ↔ j = w1.app.testimonialIndex) :=
  ⟨by decide,
    C10_exactly_one_active sampleWorld 3
      [CarouselOp.previous, CarouselOp.next, CarouselOp.next] (by decide) (by decide)
      (by decide)⟩

/-! ## Autoplay timer bookkeeping -/

theorem stop_of_none (w : World) (h : w.app.testimonialAutoplay = none) :
    stopTestimonialAutoplay w = w := by
  unfold stopTestimonialAutoplay
  rw [h]

theorem stop_of_some (w : World) (id : Nat) (h : w.app.testimonialAutoplay = some id)
    (hid : id ≠ 0) :
    stopTestimonialAutoplay w =
      { w with
        timers := w.timers.filter (fun t => t.id != id),
        app := { w.app with testimonialAutoplay := none } } := by
  unfold stopTestimonialAutoplay
  rw [h]
  simp [hid, clearInterval]

theorem stop_spec (w : World) (hinv : TimerInv w) :
    TimerInv (stopTestimonialAutoplay w) ∧
      (stopTestimonialAutoplay w).app.testimonialAutoplay = none ∧
      ∀ t ∈ (stopTestimonialAutoplay w).timers, t.callback ≠ Callback.autoplayTick := by
  obtain ⟨hpos, hids, htick⟩ := hinv
  cases hauto : w.app.testimonialAutoplay with
  | none =>
    rw [stop_of_none w hauto]
    refine ⟨⟨hpos, hids, htick⟩, hauto, fun t ht hcb => ?_⟩
    have := htick t ht hcb
    rw [hauto] at this
    cases this
  | some id =>
    have hid : id ≠ 0 := hpos id hauto
    rw [stop_of_some w id hauto hid]
    have hfilter : ∀ t ∈ w.timers.filter (fun t => t.id != id),
        t ∈ w.timers ∧ t.callback ≠ Callback.autoplayTick := by
      intro t ht
      have hmem := List.mem_filter.1 ht
      refine ⟨hmem.1, fun hcb => ?_⟩
      have h1 := htick t hmem.1 hcb
      rw [hauto] at h1
      have h2 : t.id ≠ id := by simpa using hmem.2
      exact absurd (Option.some.inj h1).symm h2
    refine ⟨⟨?_, ?_, ?_⟩, rfl, ?_⟩
    · intro i hi
      cases hi
    · intro t ht
      exact hids t (hfilter t ht).1
    · intro t ht hcb
      exact absurd hcb (hfilter t ht).2
    · intro t ht
      exact (hfilter t ht).2

theorem start_spec (w : World) (hinv : TimerInv w) :
    TimerInv (startTestimonialAutoplay w) ∧
      ∃ id, (startTestimonialAutoplay w).app.testimonialAutoplay = some id ∧ id ≠ 0 ∧
        ∃ t ∈ (startTestimonialAutoplay w).timers,
          t.id = id ∧ t.callback = Callback.autoplayTick := by
  obtain ⟨⟨_, hids, _⟩, _, hnone⟩ := stop_spec w hinv
  simp only [startTestimonialAutoplay, setInterval]
  refine ⟨⟨?_, ?_, ?_⟩, _, rfl, Nat.succ_ne_zero _, ?_⟩
  · intro i hi
    cases hi
    exact Nat.succ_ne_zero _
  · intro t ht
    rcases List.mem_append.1 ht with h | h
    · exact Nat.le_succ_of_le (hids t h)
    · simp only [List.mem_singleton] at h
      subst h
      exact Nat.le_refl _
  · intro t ht hcb
    rcases List.mem_append.1 ht with h | h
    · exact absurd hcb (hnone t h)
    · simp only [List.mem_singleton] at h
      subst h
      rfl
  · exact ⟨_, List.mem_append_right _ (List.mem_singleton_self _), rfl, rfl⟩

theorem timerInv_congr (w w1 : World)
    (h1 : w1.app.testimonialAutoplay = w.app.testimonialAutoplay)
    (h2 : w1.timers = w.timers) (h3 : w1.timerCount = w.timerCount) (hinv : TimerInv w) :
    TimerInv w1 := by
  unfold TimerInv
  rw [h1, h2, h3]
  exact hinv

theorem setTimeout_timerInv (cb : Callback) (delay : Nat) (w : World)
    (hcb : cb ≠ Callback.autoplayTick) (hinv : TimerInv w) :
    TimerInv (setTimeout cb delay w).1 := by
  obtain ⟨hpos, hids, htick⟩ := hinv
  refine ⟨hpos, ?_, ?_⟩
  · intro t ht
    rcases List.mem_append.1 ht with h | h
    · exact Nat.le_succ_of_le (hids t h)
    · simp only [List.mem_singleton] at h
      subst h
      exact Nat.le_refl _
  · intro t ht htc
    rcases List.mem_append.1 ht with h | h
    · exact htick t h htc
    · simp only [List.mem_singleton] at h
      subst h
      exact absurd htc hcb

/-! ## Page switching -/

theorem findById_modifyNode (f : Node → Node) (hf : ∀ n, (f n).id = n.id) (id : String)
    (ref : Nat) (doc : List Node) : findById id (modifyNode f ref doc) = findById id doc := by
  induction doc generalizing ref with
  | nil => cases ref <;> rfl
  | cons n ns ih =>
    cases ref with
    | zero => simp [modifyNode, findById, hf]
    | succ k => simp [modifyNode, findById, ih]

theorem findById_hideAllPages (id : String) (pages : List Nat) (doc : List Node) :
    findById id (hideAllPages pages doc) = findById id doc := by
  unfold hideAllPages
  induction pages generalizing doc with
  | nil => rfl
  | cons r rs ih =>
    simp only [List.foldl_cons]
    rw [ih]
    exact findById_modifyNode (Node.removeClass "active") (fun _ => rfl) id r doc

theorem getElementById_hideAllPages (id : String) (pages : List Nat) (doc : List Node) :
    getElementById (hideAllPages pages doc) id = getElementById doc id := by
  unfold getElementById
  rw [findById_hideAllPages]

theorem showPage_of_none (pageId : String) (w : World)
    (h : getElementById w.document pageId = none) :
    showPage pageId w = { w with document := hideAllPages w.elements.pages w.document } := by
  unfold showPage
  simp only [getElementById_hideAllPages, h]

/-- The state `showPage` builds for a found target before it starts or stops autoplay. -/
theorem showPage_of_some (pageId : String) (w : World) (target : Nat)
    (h : getElementById w.document pageId = some target) :
    ∃ w2 : World,
      w2.app = { w.app with currentPage := pageId } ∧ w2.hash = "#" ++ pageId ∧
        w2.elements = w.elements ∧
        w2.timers = w.timers ++ [⟨w.timerCount + 1, 600, false, Callback.removeFadeIn target⟩] ∧
        w2.timerCount = w.timerCount + 1 ∧
        showPage pageId w =
          if pageId = "home" then startTestimonialAutoplay w2 else stopTestimonialAutoplay w2 := by
  unfold showPage
  simp only [getElementById_hideAllPages, h]
  exact ⟨(setTimeout (Callback.removeFadeIn target) 600
      { w with
        document :=
          modifyNode (Node.addClass "fade-in-up") target
            (updateActiveNavLink pageId w.elements.navLinks
              (modifyNode (Node.addClass "active") target
                (hideAllPages w.elements.pages w.document))),
        app := { w.app with currentPage := pageId },
        hash := "#" ++ pageId,
        historyLength := w.historyLength + 1,
        scrollX := 0,
        scrollY := 0 }).1, rfl, rfl, rfl, rfl, rfl, rfl⟩

theorem showPage_timerInv (pageId : String) (w : World) (hinv : TimerInv w) :
    TimerInv (showPage pageId w) ∧ ArmedOnlyOnHome (showPage pageId w) ∨
      (showPage pageId w).app = w.app ∧ (showPage pageId w).timers = w.timers ∧
        (showPage pageId w).timerCount = w.timerCount := by
  cases hfind : getElementById w.document pageId with
  | none =>
    rw [showPage_of_none pageId w hfind]
    exact Or.inr ⟨rfl, rfl, rfl⟩
  | some target =>
    obtain ⟨w2, happ, _, _, htimers, hcount, hshow⟩ := showPage_of_some pageId w target hfind
    have hinv2 : TimerInv w2 := by
      have h1 := setTimeout_timerInv (Callback.removeFadeIn target) 600 w (by simp) hinv
      refine timerInv_congr _ w2 ?_ ?_ ?_ h1
      · rw [happ]
        rfl
      · rw [htimers]
        rfl
      · rw [hcount]
        rfl
    have hpage2 : w2.app.currentPage = pageId := by rw [happ]
    rw [hshow]
    refine Or.inl ?_
    by_cases hhome : pageId = "home"
    · simp only [hhome, if_true]
      refine ⟨(start_spec w2 hinv2).1, fun _ => ?_⟩
      rw [start_currentPage, hpage2, hhome]
    · simp only [hhome, if_false]
      obtain ⟨h1, h2, _⟩ := stop_spec w2 hinv2
      exact ⟨h1, fun h => absurd h2 h⟩

theorem showNext_frame (w w1 : World) (h : showNextTestimonial w = some w1) :
    w1.app.testimonialAutoplay = w.app.testimonialAutoplay ∧
      w1.app.currentPage = w.app.currentPage ∧ w1.timers = w.timers ∧
      w1.timerCount = w.timerCount := by
  unfold showNextTestimonial at h
  simp only at h
  split at h
  · cases h
    exact ⟨rfl, rfl, rfl, rfl⟩
  · split at h
    · cases h
    · split at h
      · cases h
      · cases h
        exact ⟨rfl, rfl, rfl, rfl⟩

theorem showPrevious_frame (w w1 : World) (h : showPreviousTestimonial w = some w1) :
    w1.app.testimonialAutoplay = w.app.testimonialAutoplay ∧
      w1.app.currentPage = w.app.currentPage ∧ w1.timers = w.timers ∧
      w1.timerCount = w.timerCount := by
  unfold showPreviousTestimonial at h
  simp only at h
  split at h
  · cases h
    exact ⟨rfl, rfl, rfl, rfl⟩
  · split at h
    · cases h
    · split at h
      · cases h
      · cases h
        exact ⟨rfl, rfl, rfl, rfl⟩

theorem showModal_frame (w : World) :
    (showModal w).app.testimonialAutoplay = w.app.testimonialAutoplay ∧
      (showModal w).app.currentPage = w.app.currentPage ∧ (showModal w).timers = w.timers ∧
      (showModal w).timerCount = w.timerCount := by
  unfold showModal
  split <;> exact ⟨rfl, rfl, rfl, rfl⟩

theorem hideModal_frame (w : World) :
    (hideModal w).app.testimonialAutoplay = w.app.testimonialAutoplay ∧
      (hideModal w).app.currentPage = w.app.currentPage ∧ (hideModal w).timers = w.timers ∧
      (hideModal w).timerCount = w.timerCount := by
  unfold hideModal
  split <;> exact ⟨rfl, rfl, rfl, rfl⟩

theorem inv_of_frame (w w1 : World)
    (h : w1.app.testimonialAutoplay = w.app.testimonialAutoplay ∧
      w1.app.currentPage = w.app.currentPage ∧ w1.timers = w.timers ∧
      w1.timerCount = w.timerCount)
    (hinv : TimerInv w ∧ ArmedOnlyOnHome w) : TimerInv w1 ∧ ArmedOnlyOnHome w1 := by
  obtain ⟨h1, h2, h3, h4⟩ := h
  refine ⟨timerInv_congr w w1 h1 h3 h4 hinv.1, ?_⟩
  unfold ArmedOnlyOnHome
  rw [h1, h2]
  exact hinv.2

theorem action_inv (a : Action) (w : World) (hinv : TimerInv w ∧ ArmedOnlyOnHome w) :
    TimerInv (a.run w) ∧ ArmedOnlyOnHome (a.run w) := by
  cases a with
  | showPage pageId =>
    simp only [Action.run]
    rcases showPage_timerInv pageId w hinv.1 with h | ⟨h1, h2, h3⟩
    · exact h
    · exact inv_of_frame w _ ⟨by rw [h1], by rw [h1], h2, h3⟩ hinv
  | showNextTestimonial =>
    simp only [Action.run]
    cases h : showNextTestimonial w with
    | none => exact hinv
    | some w1 => exact inv_of_frame w w1 (showNext_frame w w1 h) hinv
  | showPreviousTestimonial =>
    simp only [Action.run]
    cases h : showPreviousTestimonial w with
    | none => exact hinv
    | some w1 => exact inv_of_frame w w1 (showPrevious_frame w w1 h) hinv
  | showModal => exact inv_of_frame w _ (showModal_frame w) hinv
  | hideModal => exact inv_of_frame w _ (hideModal_frame w) hinv

theorem initial_inv (w0 : World) (h0 : w0.Initial) : TimerInv w0 ∧ ArmedOnlyOnHome w0 := by
  obtain ⟨happ, htimers⟩ := h0
  refine ⟨⟨?_, fun t ht => (htimers t ht).1, fun t ht hcb => absurd hcb (htimers t ht).2⟩, ?_⟩
  · intro id hid
    rw [happ] at hid
    cases hid
  · intro _
    rw [happ]
    rfl

theorem initializeTestimonials_timerInv (w0 : World) (h0 : w0.Initial) :
    TimerInv (initializeTestimonials w0) ∧ ArmedOnlyOnHome (initializeTestimonials w0) := by
  have hinv := initial_inv w0 h0
  unfold initializeTestimonials
  split
  · exact hinv
  · have hpage : w0.app.currentPage = "home" := by
      rw [h0.1]
      rfl
    have hinv1 : TimerInv
        { w0 with
          document := toggleFirstActive 0 w0.elements.testimonials w0.document,
          app := { w0.app with testimonialIndex := 0 } } :=
      timerInv_congr w0 _ rfl rfl rfl hinv.1
    refine ⟨(start_spec _ hinv1).1, fun _ => ?_⟩
    rw [start_currentPage]
    exact hpage

theorem runActions_inv (acts : List Action) (w : World)
    (hinv : TimerInv w ∧ ArmedOnlyOnHome w) :
    TimerInv (runActions acts w) ∧ ArmedOnlyOnHome (runActions acts w) := by
  induction acts generalizing w with
  | nil => exact hinv
  | cons a rest ih => exact ih (a.run w) (action_inv a w hinv)

theorem showPage_home_armed (w : World) (hinv : TimerInv w)
    (hfound : getElementById w.document "home" ≠ none) :
    ∃ id, (showPage "home" w).app.testimonialAutoplay = some id ∧
      ∃ t ∈ (showPage "home" w).timers, t.id = id ∧ t.callback = Callback.autoplayTick := by
  cases hfind : getElementById w.document "home" with
  | none => exact absurd hfind hfound
  | some target =>
    obtain ⟨w2, happ, _, _, htimers, hcount, hshow⟩ := showPage_of_some "home" w target hfind
    have hinv2 : TimerInv w2 := by
      have h1 := setTimeout_timerInv (Callback.removeFadeIn target) 600 w (by simp) hinv
      refine timerInv_congr _ w2 ?_ ?_ ?_ h1
      · rw [happ]
        rfl
      · rw [htimers]
        rfl
      · rw [hcount]
        rfl
    rw [hshow]
    simp only [if_true]
    obtain ⟨_, id, h1, _, h2⟩ := start_spec w2 hinv2
    exact ⟨id, h1, h2⟩

theorem showPage_other_cancelled (pageId : String) (w : World) (hinv : TimerInv w)
    (hhome : pageId ≠ "home") (hfound : getElementById w.document pageId ≠ none) :
    (showPage pageId w).app.currentPage = pageId ∧
      (showPage pageId w).app.testimonialAutoplay = none ∧
      ∀ t ∈ (showPage pageId w).timers, t.callback ≠ Callback.autoplayTick := by
  cases hfind : getElementById w.document pageId with
  | none => exact absurd hfind hfound
  | some target =>
    obtain ⟨w2, happ, _, _, htimers, hcount, hshow⟩ := showPage_of_some pageId w target hfind
    have hinv2 : TimerInv w2 := by
      have h1 := setTimeout_timerInv (Callback.removeFadeIn target) 600 w (by simp) hinv
      refine timerInv_congr _ w2 ?_ ?_ ?_ h1
      · rw [happ]
        rfl
      · rw [htimers]
        rfl
      · rw [hcount]
        rfl
    rw [hshow]
    simp only [hhome, if_false]
    obtain ⟨_, h2, h3⟩ := stop_spec w2 hinv2
    refine ⟨?_, h2, h3⟩
    rw [stop_currentPage, happ]

/-! ## Page router properties -/

/-- C3, as stated, fails: `header` and `faq` are not among the four page ids,
yet `showPage('header')` on a document holding an element with id `header`
changes `app.currentPage`, and `showPage('faq')` on a document without such an
element changes the set of pages marked `active`. -/
theorem C3_unknown_pageId_counterexample :
    ("header" ∉ knownPages ∧
        (showPage "header" sampleWorld).app.currentPage ≠ sampleWorld.app.currentPage) ∧
      ("faq" ∉ knownPages ∧
        (showPage "faq" sampleWorld).activePages ≠ sampleWorld.activePages) := by
  decide

/-- C3, amended: when no element of the document carries the id `pageId`,
`showPage(pageId)` returns normally and leaves `app` (so `app.currentPage` and
the autoplay handle), the URL fragment and the pending timers as they were. -/
theorem C3_showPage_without_target (w : World) (pageId : String)
    (hmissing : getElementById w.document pageId = none) :
    (showPage pageId w).app = w.app ∧ (showPage pageId w).hash = w.hash ∧
      (showPage pageId w).historyLength = w.historyLength ∧
      (showPage pageId w).timers = w.timers ∧
      (showPage pageId w).timerCount = w.timerCount := by
  rw [showPage_of_none pageId w hmissing]
  exact ⟨rfl, rfl, rfl, rfl, rfl⟩

theorem C3_showPage_without_target_witness :
    getElementById sampleWorld.document "faq" = none ∧
      (showPage "faq" sampleWorld).app = sampleWorld.app ∧
      (showPage "faq" sampleWorld).hash = sampleWorld.hash ∧
      (showPage "faq" sampleWorld).historyLength = sampleWorld.historyLength ∧
      (showPage "faq" sampleWorld).timers = sampleWorld.timers ∧
      (showPage "faq" sampleWorld).timerCount = sampleWorld.timerCount :=
  ⟨by decide, C3_showPage_without_target sampleWorld "faq" (by decide)⟩

/-- C7: in every state reached from the initial state by `initializeTestimonials`
and then any sequence of `showPage`, `showNextTestimonial`,
`showPreviousTestimonial`, `showModal` and `hideModal` calls, an armed autoplay
timer (`app.testimonialAutoplay` not `null`) implies `app.currentPage` is
`home`; from such a state `showPage('contact')` with a contact element present
leaves the handle `null` and no autoplay timer pending, and `showPage('home')`
with a home element present leaves the handle set to a pending autoplay timer. -/
theorem C7_armed_only_on_home (w0 : World) (acts : List Action) (h0 : w0.Initial) :
    ((runActions acts (initializeTestimonials w0)).app.testimonialAutoplay ≠ none →
        (runActions acts (initializeTestimonials w0)).app.currentPage = "home") ∧
      (getElementById (runActions acts (initializeTestimonials w0)).document "contact" ≠ none →
        (showPage "contact" (runActions acts (initializeTestimonials w0))).app.testimonialAutoplay
            = none ∧
          ∀ t ∈ (showPage "contact" (runActions acts (initializeTestimonials w0))).timers,
            t.callback ≠ Callback.autoplayTick) ∧
      (getElementById (runActions acts (initializeTestimonials w0)).document "home" ≠ none →
        ∃ id,
          (showPage "home" (runActions acts (initializeTestimonials w0))).app.testimonialAutoplay
              = some id ∧
            ∃ t ∈ (showPage "home" (runActions acts (initializeTestimonials w0))).timers,
              t.id = id ∧ t.callback = Callback.autoplayTick) := by
  have hinv := runActions_inv acts _ (initializeTestimonials_timerInv w0 h0)
  refine ⟨hinv.2, fun hfound => ?_, fun hfound => ?_⟩
  · exact (showPage_other_cancelled "contact" _ hinv.1 (by decide) hfound).2
  · exact showPage_home_armed _ hinv.1 hfound

theorem C7_armed_only_on_home_witness :
    sampleWorld.Initial ∧
      (runActions [Action.showPage "contact", Action.showNextTestimonial, Action.showModal,
          Action.showPage "home", Action.hideModal]
          (initializeTestimonials sampleWorld)).app.testimonialAutoplay ≠ none ∧
      (runActions [Action.showPage "contact", Action.showNextTestimonial, Action.showModal,
          Action.showPage "home", Action.hideModal]
          (initializeTestimonials sampleWorld)).app.currentPage = "home" :=
  have h := C7_armed_only_on_home sampleWorld
    [Action.showPage "contact", Action.showNextTestimonial, Action.showModal,
      Action.showPage "home", Action.hideModal] (by decide)
  ⟨by decide, by decide, h.1 (by decide)⟩

/-! ## Form validation -/

theorem checkRequired_snd (f : Field) : (checkRequired f).2 = true ↔ FieldOk f := by
  unfold checkRequired FieldOk
  by_cases hb : isBlank f.value = true
  · simp [hb]
  · have hb1 : isBlank f.value = false := by simpa using hb
    by_cases he : f.type = "email"
    · have ht : ¬ f.type = "tel" := by
        rw [he]
        decide
      by_cases hv : isValidEmail f.value = true
      · simp [hb1, he, hv]
      · have hv1 : isValidEmail f.value = false := by simpa using hv
        simp [hb1, he, hv1]
    · by_cases ht : f.type = "tel"
      · by_cases hv : isValidPhone f.value = true
        · simp [hb1, he, ht, hv]
        · have hv1 : isValidPhone f.value = false := by simpa using hv
          simp [hb1, ht, hv1]
      · simp [hb1, he, ht]

theorem checkRequired_attrs (f : Field) :
    (checkRequired f).1.tag = f.tag ∧ (checkRequired f).1.name = f.name ∧
      (checkRequired f).1.checked = f.checked := by
  unfold checkRequired
  split
  · exact ⟨rfl, rfl, rfl⟩
  · split
    · exact ⟨rfl, rfl, rfl⟩
    · split <;> exact ⟨rfl, rfl, rfl⟩

theorem validateRequired_snd (fields : List Field) (isValid : Bool) :
    (validateRequired fields isValid).2 = true ↔
      isValid = true ∧ ∀ f ∈ fields, f.required = true → FieldOk f := by
  induction fields generalizing isValid with
  | nil => simp [validateRequired]
  | cons f rest ih =>
    by_cases hr : f.required = true
    · simp only [validateRequired, hr, if_true, ih, Bool.and_eq_true, checkRequired_snd,
        List.mem_cons, forall_eq_or_imp, true_implies]
      tauto
    · have hr1 : f.required = false := by simpa using hr
      simp only [validateRequired, hr1, Bool.false_eq_true, if_false, List.mem_cons,
        forall_eq_or_imp, false_implies, true_and]
      exact ih isValid

theorem find?_cons_pos (p : Field → Bool) (f : Field) (l : List Field) (h : p f = true) :
    (f :: l).find? p = some f := by
  simp [List.find?_cons, h]

theorem find?_cons_neg (p : Field → Bool) (f : Field) (l : List Field) (h : ¬ p f = true) :
    (f :: l).find? p = l.find? p := by
  simp [List.find?_cons, h]

theorem isConsentInput_checkRequired (f : Field) :
    isConsentInput (checkRequired f).1 = isConsentInput f := by
  obtain ⟨h1, h2, _⟩ := checkRequired_attrs f
  unfold isConsentInput
  rw [h1, h2]

theorem validateRequired_find (fields : List Field) (isValid : Bool) :
    ((validateRequired fields isValid).1.find? isConsentInput).map (fun f => f.checked) =
      (fields.find? isConsentInput).map (fun f => f.checked) := by
  induction fields generalizing isValid with
  | nil => simp [validateRequired]
  | cons f rest ih =>
    by_cases hp : isConsentInput f = true
    · by_cases hr : f.required = true
      · have hp1 : isConsentInput (checkRequired f).1 = true := by
          rw [isConsentInput_checkRequired]
          exact hp
        simp only [validateRequired, hr, if_true]
        rw [find?_cons_pos _ _ _ hp1, find?_cons_pos _ _ _ hp]
        simp [(checkRequired_attrs f).2.2]
      · have hr1 : f.required = false := by simpa using hr
        simp only [validateRequired, hr1, Bool.false_eq_true, if_false]
        rw [find?_cons_pos _ _ _ hp, find?_cons_pos _ _ _ hp]
    · by_cases hr : f.required = true
      · have hp1 : ¬ isConsentInput (checkRequired f).1 = true := by
          rw [isConsentInput_checkRequired]
          exact hp
        simp only [validateRequired, hr, if_true]
        rw [find?_cons_neg _ _ _ hp1, find?_cons_neg _ _ _ hp]
        exact ih _
      · have hr1 : f.required = false := by simpa using hr
        simp only [validateRequired, hr1, Bool.false_eq_true, if_false]
        rw [find?_cons_neg _ _ _ hp, find?_cons_neg _ _ _ hp]
        exact ih _

theorem validateForm_snd (form : Form) :
    (validateForm form).2 = some true ↔
      (∀ f ∈ form.fields, f.required = true → FieldOk f) ∧ ConsentOk form := by
  have hfind := validateRequired_find form.fields true
  have hsnd := validateRequired_snd form.fields true
  unfold ConsentOk consentCheckbox
  unfold validateForm consentCheckbox
  simp only
  cases h1 : (validateRequired form.fields true).1.find? isConsentInput with
  | none =>
    rw [h1] at hfind
    cases h2 : form.fields.find? isConsentInput with
    | none => simp [hsnd]
    | some cb =>
      rw [h2] at hfind
      simp at hfind
  | some cb1 =>
    rw [h1] at hfind
    cases h2 : form.fields.find? isConsentInput with
    | none =>
      rw [h2] at hfind
      simp at hfind
    | some cb =>
      rw [h2] at hfind
      have hchk : cb1.checked = cb.checked := by simpa using hfind
      by_cases hc : cb.checked = true
      · simp [hchk, hc, hsnd]
      · have hc1 : cb.checked = false := by simpa using hc
        simp only [hchk, hc1, Bool.not_false, if_true]
        cases form.consentGroup <;> simp [hc1]

theorem validateForm_submitBtn (form : Form) :
    (validateForm form).1.submitBtn = form.submitBtn := by
  unfold validateForm
  simp only
  split
  · rfl
  · split
    · split <;> rfl
    · rfl

theorem validateForm_not_true_of_blank (form : Form)
    (hmissing : ∃ f ∈ form.fields, f.required = true ∧ isBlank f.value = true) :
    (validateForm form).2 ≠ some true := by
  intro h
  obtain ⟨f, hf, hreq, hblank⟩ := hmissing
  have hok := ((validateForm_snd form).1 h).1 f hf hreq
  rw [hok.1] at hblank
  cases hblank

theorem handleFormSubmission_invalid (w : World) (form : Form) (formType : String)
    (btn : Button) (hbtn : form.submitBtn = some btn)
    (hinvalid : (validateForm form).2 ≠ some true) :
    handleFormSubmission w form formType =
      { world := w, form := (validateForm form).1,
        raised := decide ((validateForm form).2 = none) } := by
  unfold handleFormSubmission
  rw [hbtn]
  rcases hv : validateForm form with ⟨form1, r⟩
  rw [hv] at hinvalid
  rcases r with _ | _ | _
  · simp
  · simp
  · exact absurd rfl hinvalid

/-! ## Validator and submission properties -/

/-- C4, as stated, fails: a form whose only control is an optional `email`
field holding `abc` passes `validateForm`, although that field is not `Valid`. -/
theorem C4_optional_field_counterexample :
    ¬ ((validateForm optionalEmailForm).2 = some true ↔
      (∀ f ∈ optionalEmailForm.fields, SpecFieldValid f) ∧ ConsentOk optionalEmailForm) := by
  intro h
  have hspec := (h.1 (by decide)).1
  exact absurd hspec (by decide)

/-- C4, amended: `validateForm(form)` returns `true` exactly when every
required control of the form has a non-blank value, holds a well-formed
address when of type `email` and a well-formed number when of type `tel`, and
the consent checkbox, when the form has one, is checked. -/
theorem C4_validateForm_required_fields (form : Form) :
    (validateForm form).2 = some true ↔
      (∀ f ∈ form.fields, f.required = true → FieldOk f) ∧ ConsentOk form :=
  validateForm_snd form

/-- C5, as stated, fails: `7123456789` is ten digits with no prefix, which the
optional-prefix shape admits, yet `isValidPhone` rejects it. -/
theorem C5_optional_prefix_counterexample :
    ¬ (isValidPhone "7123456789" = true ↔
      PhoneShapeOptional (stripWhiteSpace "7123456789".toList)) := by
  intro h
  have hshape : PhoneShapeOptional (stripWhiteSpace "7123456789".toList) :=
    ⟨[], stripWhiteSpace "7123456789".toList, rfl, Or.inl rfl, by decide, by decide, by decide⟩
  exact absurd (h.2 hshape) (by decide)

/-- C5, amended: `isValidPhone(p)` is true exactly when `p` with all white
space removed is a mandatory `+44` or `0` followed by between 9 and 13
characters, each a digit or a hyphen. -/
theorem C5_isValidPhone_required_prefix (p : String) :
    isValidPhone p = true ↔ PhoneShapeRequired (stripWhiteSpace p.toList) :=
  isValidPhone_iff p

/-- C6: `isValidEmail(s)` is true exactly when `s` has no white space, exactly
one `@`, and a `.` after the `@` that leaves a non-empty part before the `@`,
between the `@` and the `.`, and after the `.`; `user@example.com` is accepted
and `user@` is rejected. -/
theorem C6_isValidEmail_shape :
    (∀ s : String, isValidEmail s = true ↔ EmailShape s.toList) ∧
      isValidEmail "user@example.com" = true ∧ isValidEmail "user@" = false :=
  ⟨isValidEmail_iff, by decide, by decide⟩

/-- C9: for a form with a submit button and a required control whose trimmed
value is empty, `handleFormSubmission` leaves the submit button as it was
(enabled and without `loading` when it was so), schedules no timer and leaves
`app.isModalOpen` as it was. -/
theorem C9_missing_required_field (w : World) (form : Form) (formType : String)
    (btn : Button) (hbtn : form.submitBtn = some btn)
    (hmissing : ∃ f ∈ form.fields, f.required = true ∧ isBlank f.value = true) :
    (handleFormSubmission w form formType).form.submitBtn = some btn ∧
      (handleFormSubmission w form formType).world.timers = w.timers ∧
      (handleFormSubmission w form formType).world.app.isModalOpen = w.app.isModalOpen ∧
      (handleFormSubmission w form formType).world = w := by
  rw [handleFormSubmission_invalid w form formType btn hbtn
    (validateForm_not_true_of_blank form hmissing)]
  exact ⟨by rw [validateForm_submitBtn, hbtn], rfl, rfl, rfl⟩

theorem C9_missing_required_field_witness :
    (∃ f ∈ blankNameForm.fields, f.required = true ∧ isBlank f.value = true) ∧
      (handleFormSubmission sampleWorld blankNameForm "quick-quote").form.submitBtn
          = some ⟨"Get quote", false, ["btn"]⟩ ∧
      (handleFormSubmission sampleWorld blankNameForm "quick-quote").world.timers
          = sampleWorld.timers ∧
      (handleFormSubmission sampleWorld blankNameForm "quick-quote").world.app.isModalOpen
          = sampleWorld.app.isModalOpen ∧
      (handleFormSubmission sampleWorld blankNameForm "quick-quote").world = sampleWorld :=
  ⟨by decide,
    C9_missing_required_field sampleWorld blankNameForm "quick-quote"
      ⟨"Get quote", false, ["btn"]⟩ rfl (by decide)⟩

/-- A correctly filled form does get past validation: the button is disabled
and marked `loading`, and the completion is scheduled. -/
theorem handleFormSubmission_filled :
    (validateForm filledForm).2 = some true ∧
      (handleFormSubmission sampleWorld filledForm "quick-quote").form.submitBtn
          = some ⟨"Get quote", true, ["btn", "loading"]⟩ ∧
      (handleFormSubmission sampleWorld filledForm "quick-quote").world.timers
          = [⟨1, 2000, false,
              Callback.finishSubmission "quick-quote"
                [("name", "Ada"), ("email", "user@example.com"), ("phone", "07123 456789"),
                  ("notes", ""), ("consent", "on")]⟩] := by
  decide

/-! ## Phone input formatting -/

theorem isWhiteSpace_of_isDigit (c : Char) (h : isDigit c = true) : isWhiteSpace c = false := by
  unfold isDigit at h
  simp only [Bool.and_eq_true, decide_eq_true_eq] at h
  obtain ⟨h1, h2⟩ := h
  unfold isWhiteSpace
  simp only [Bool.or_eq_false_iff, beq_eq_false_iff_ne, ne_eq, Bool.and_eq_false_imp,
    decide_eq_true_eq, decide_eq_false_iff_not]
  omega

/-- What the listener computes from the digits left after `replace(/\D/g, '')`
when they are `0` or `44` followed by ten digits: the space written after `+44`
is counted as the first of the `numbers`, so the groups hold three digits each
and the tenth digit is cut off. -/
theorem phoneInputHandler_ten_digits (fieldValue : String)
    (d1 d2 d3 d4 d5 d6 d7 d8 d9 d10 : Char)
    (hdigits : ∀ c ∈ [d1, d2, d3, d4, d5, d6, d7, d8, d9, d10], isDigit c = true)
    (hvalue : stripNonDigits fieldValue.toList = '0' :: [d1, d2, d3, d4, d5, d6, d7, d8, d9, d10] ∨
      stripNonDigits fieldValue.toList =
        '4' :: '4' :: [d1, d2, d3, d4, d5, d6, d7, d8, d9, d10]) :
    phoneInputHandler fieldValue =
      String.mk ['+', '4', '4', ' ', ' ', d1, d2, d3, ' ', d4, d5, d6, ' ', d7, d8, d9] := by
  have h9 : isWhiteSpace d9 = false := isWhiteSpace_of_isDigit d9 (hdigits d9 (by simp))
  have hplus : isWhiteSpace '+' = false := by decide
  have h44 : "44".toList = ['4', '4'] := rfl
  have h0 : "0".toList = ['0'] := rfl
  have hp44 : "+44".toList = ['+', '4', '4'] := rfl
  have hp44s : "+44 ".toList = ['+', '4', '4', ' '] := rfl
  have hsp : " ".toList = [' '] := rfl
  unfold phoneInputHandler
  rw [h44, h0, hp44, hp44s, hsp]
  rcases hvalue with hv | hv
  · rw [hv]
    simp [startsWith, substringFrom, substring, trim, List.isPrefixOf, List.dropWhile, h9,
      hplus]
  · rw [hv]
    simp [startsWith, substringFrom, substring, trim, List.isPrefixOf, List.dropWhile, h9,
      hplus]

/-- For every value in the range of the claim the listener misses the
announced format. -/
theorem phoneInputHandler_ne_announced (fieldValue : String)
    (d1 d2 d3 d4 d5 d6 d7 d8 d9 d10 : Char)
    (hdigits : ∀ c ∈ [d1, d2, d3, d4, d5, d6, d7, d8, d9, d10], isDigit c = true)
    (hvalue : stripNonDigits fieldValue.toList = '0' :: [d1, d2, d3, d4, d5, d6, d7, d8, d9, d10] ∨
      stripNonDigits fieldValue.toList =
        '4' :: '4' :: [d1, d2, d3, d4, d5, d6, d7, d8, d9, d10]) :
    phoneInputHandler fieldValue ≠ announcedPhoneFormat d1 d2 d3 d4 d5 d6 d7 d8 d9 d10 := by
  rw [phoneInputHandler_ten_digits fieldValue d1 d2 d3 d4 d5 d6 d7 d8 d9 d10 hdigits hvalue]
  unfold announcedPhoneFormat
  intro h
  have hlist := congrArg String.data h
  simp only [List.cons.injEq, true_and] at hlist
  have hd1 : isDigit d1 = true := hdigits d1 (by simp)
  rw [← hlist.1] at hd1
  exact absurd hd1 (by decide)

/-- C11: typing `07123456789` (a `0` followed by the ten digits `7123456789`)
makes the listener write `+44  712 345 678`, with two spaces after `+44`,
groups of three digits and the last digit lost, not the `+44 7123 456 789` of
the comment `Format as +44 XXXX XXX XXX`; the same happens for `447123456789`. -/
theorem C11_phone_format_drops_last_digit :
    phoneInputHandler "07123456789" = "+44  712 345 678" ∧
      phoneInputHandler "447123456789" = "+44  712 345 678" ∧
      announcedPhoneFormat '7' '1' '2' '3' '4' '5' '6' '7' '8' '9' = "+44 7123 456 789" ∧
      phoneInputHandler "07123456789" ≠
        announcedPhoneFormat '7' '1' '2' '3' '4' '5' '6' '7' '8' '9' := by
  decide

end AtoZ
